import Mathlib

/-!
Mater: broad phase, simulation step, rotation and scene saving.

A shallow embedding of `src/collision/broadphase.go`, `src/collision/space.go`,
`src/transform/transform.go` and of `Scene.MarshalEntities` in `src/save.go`.

Conventions of the embedding.

* Go slices are lists; an index outside the slice is a run-time panic, which the
  embedding renders as `none`.
* Proxy ids are `Int` (the tombstone is `-1`); counts and capacities are `Nat`.
* `float64` quantities of the step loop and of rotations are rationals (exact
  arithmetic); the conversion `float64(id)` of a proxy id rounds to 53 significant bits;
  the timestep scalars are also read over `F64`, which adds the infinities and NaN.
* Pointers to bodies, entities, spaces and scenes are references (`Nat`) into a memory.
* The dynamic tree, the contact manager, bodies' shapes, arbiters' solver routines and
  the JSON encoder are outside the embedded sources; they enter as parameters
  (`DynamicTree`, `Collab`, `ProxyOps`, `Encoder`).
-/

namespace Mater

/-! ## Pairs and their comparator -/

/-- `type Pair struct { ProxyIdA, ProxyIdB int }`. -/
structure Pair where
  ProxyIdA : Int
  ProxyIdB : Int
deriving DecidableEq, Repr

/-- The body of `pairSlice.Less`, on the two elements `p1 = p[i]`, `p2 = p[j]`. -/
def Pair.less (p1 p2 : Pair) : Bool :=
  if p1.ProxyIdA < p2.ProxyIdA then false
  else
    if p1.ProxyIdA = p2.ProxyIdA then
      if p1.ProxyIdB < p2.ProxyIdB then false
      else if p1.ProxyIdB = p2.ProxyIdB then true
      else true
    else true

/-- The strict lexicographic order on `(ProxyIdA, ProxyIdB)`. -/
def Pair.lexLt (a b : Pair) : Prop :=
  a.ProxyIdA < b.ProxyIdA ∨ (a.ProxyIdA = b.ProxyIdA ∧ a.ProxyIdB < b.ProxyIdB)

/-- `pairSlice.Less(i, j)`; `none` when an index is out of range. -/
def Less (p : List Pair) (i j : Nat) : Option Bool :=
  match p[i]?, p[j]? with
  | some p1, some p2 => some (p1.less p2)
  | _, _ => none

/-- The contract taken for the library routine `sort.Sort` applied to a `pairSlice`:
it rearranges the slice, and afterwards `Less(i, j)` holds for all `i < j`. -/
def SortsByLess (srt : List Pair → List Pair) : Prop :=
  ∀ l, (srt l).Perm l ∧ (srt l).Pairwise (fun a b => a.less b = true)

/-- A concrete sorting routine meeting `SortsByLess`: insertion sort driven by `Pair.less`. -/
def sortDesc (l : List Pair) : List Pair :=
  List.insertionSort (fun a b => a.less b = true) l

/-! ## The dynamic tree, as far as the broad phase uses it -/

/-- The interface of `DynamicTree` (its implementation is not among the sources).
`T` is the tree's state, `A` the type of AABBs, `V` of displacement vectors, `P` of
shape proxies. `Query t aabb` lists the proxy ids the tree hands to the query
callback, in order, for as long as the callback answers `true`. `proxyAABB` is the
field `ShapeProxy.AABB`. -/
structure DynamicTree (T A V P : Type) where
  AddProxy : T → A → P → T × Int
  RemoveProxy : T → Int → T
  MoveProxy : T → Int → A → V → T × Bool
  GetFatAABB : T → Int → A
  GetUserData : T → Int → P
  Query : T → A → List Int
  proxyAABB : P → A

/-! ## The broad phase -/

/-- `type BroadPhase struct`; `_tree` is the tree's state. -/
structure BroadPhase (T : Type) where
  _moveBuffer : List Int
  _moveCapacity : Nat
  _moveCount : Nat
  _pairBuffer : List Pair
  _pairCapacity : Nat
  _pairCount : Nat
  _proxyCount : Int
  _queryProxyId : Int
  _tree : T

namespace BroadPhase

variable {T A V P : Type}

/-- `NewBroadPhase`, over the empty tree `t0` that `NewDynamicTree` returns. -/
def NewBroadPhase (t0 : T) : BroadPhase T :=
  { _moveBuffer := List.replicate 16 0
    _moveCapacity := 16
    _moveCount := 0
    _pairBuffer := List.replicate 16 ⟨0, 0⟩
    _pairCapacity := 16
    _pairCount := 0
    _proxyCount := 0
    _queryProxyId := 0
    _tree := t0 }

/-- `ProxyCount`. -/
def ProxyCount (dtb : BroadPhase T) : Int := dtb._proxyCount

/-- `bufferMove`. -/
def bufferMove (dtb : BroadPhase T) (proxyId : Int) : Option (BroadPhase T) :=
  let dtb1 : BroadPhase T :=
    if dtb._moveCount = dtb._moveCapacity then
      { dtb with
        _moveBuffer := dtb._moveBuffer ++ List.replicate dtb._moveCapacity 0
        _moveCapacity := dtb._moveCapacity * 2 }
    else dtb
  if dtb1._moveCount < dtb1._moveBuffer.length then
    some { dtb1 with
      _moveBuffer := dtb1._moveBuffer.set dtb1._moveCount proxyId
      _moveCount := dtb1._moveCount + 1 }
  else none

/-- The loop of `unBufferMove` from index `i` on, over the slots `buf = _moveBuffer[i:]`
with `n = _moveCount - i` iterations left: the first slot equal to `proxyId` is set
to `-1` and the loop returns. `none` when a slot below `_moveCount` does not exist. -/
def unBufferLoop (proxyId : Int) : Nat → List Int → Option (List Int)
  | 0, buf => some buf
  | _ + 1, [] => none
  | n + 1, x :: rest =>
    if x = proxyId then some (-1 :: rest)
    else (unBufferLoop proxyId n rest).map (fun r => x :: r)

/-- `unBufferMove`. -/
def unBufferMove (dtb : BroadPhase T) (proxyId : Int) : Option (BroadPhase T) :=
  (unBufferLoop proxyId dtb._moveCount dtb._moveBuffer).map
    (fun b => { dtb with _moveBuffer := b })

/-- The conversion `float64(x)` of an `int`, given as the integer the resulting float
denotes: `x` itself when `|x| ≤ 2^53`, otherwise `x` rounded to 53 significant bits
(to the nearest, ties to even). -/
def float64 (x : Int) : Int :=
  let n := x.natAbs
  if n ≤ 9007199254740992 then x
  else
    let u := 2 ^ (Nat.log2 n - 52)
    let q := n / u
    let r := n % u
    let q1 := if 2 * r < u then q else if u < 2 * r then q + 1 else if q % 2 = 0 then q else q + 1
    if x < 0 then -((q1 * u : Nat) : Int) else ((q1 * u : Nat) : Int)

/-- `int(math.Min(float64(a), float64(b)))`. The two floats denote integers, of which
`math.Min` returns the smaller and `int` the integer it denotes (ids stay within the
range of `int`). -/
def minId (a b : Int) : Int := min (float64 a) (float64 b)

/-- `int(math.Max(float64(a), float64(b)))`, as `minId`. -/
def maxId (a b : Int) : Int := max (float64 a) (float64 b)

/-- `queryCallback`: the new state and the returned flag. -/
def queryCallback (dtb : BroadPhase T) (proxyId : Int) : Option (BroadPhase T × Bool) :=
  if proxyId = dtb._queryProxyId then some (dtb, true)
  else
    let dtb1 : BroadPhase T :=
      if dtb._pairCount = dtb._pairCapacity then
        { dtb with
          _pairBuffer := List.replicate dtb._pairCapacity ⟨0, 0⟩ ++ dtb._pairBuffer
          _pairCapacity := dtb._pairCapacity * 2 }
      else dtb
    if dtb1._pairCount < dtb1._pairBuffer.length then
      some ({ dtb1 with
        _pairBuffer := dtb1._pairBuffer.set dtb1._pairCount
          ⟨minId proxyId dtb1._queryProxyId, maxId proxyId dtb1._queryProxyId⟩
        _pairCount := dtb1._pairCount + 1 }, true)
    else none

/-- The tree's `Query(callback, aabb)` with `callback = queryCallback`: the ids the
tree visits are handed to the callback one by one until it answers `false`. -/
def runQuery : List Int → BroadPhase T → Option (BroadPhase T)
  | [], dtb => some dtb
  | id :: rest, dtb =>
    match queryCallback dtb id with
    | none => none
    | some (dtb1, true) => runQuery rest dtb1
    | some (dtb1, false) => some dtb1

/-- The first loop of `UpdatePairs`, for the indices `js` of the move buffer. Besides
the state it returns the ids passed to the tree's `GetFatAABB`/`Query`, in order. -/
def queryLoop (tree : DynamicTree T A V P) :
    List Nat → BroadPhase T → Option (BroadPhase T × List Int)
  | [], dtb => some (dtb, [])
  | j :: js, dtb =>
    match dtb._moveBuffer[j]? with
    | none => none
    | some q =>
      let dtb1 := { dtb with _queryProxyId := q }
      if q = -1 then queryLoop tree js dtb1
      else
        let fatAABB := tree.GetFatAABB dtb1._tree q
        match runQuery (tree.Query dtb1._tree fatAABB) dtb1 with
        | none => none
        | some dtb2 => (queryLoop tree js dtb2).map (fun r => (r.1, q :: r.2))

/-- The reporting loop of `UpdatePairs` over `_pairBuffer[i:_pairCount]`; `primary` is
the `primaryPair` of the last callback (none before the first). An entry that
differs from `primaryPair` in a field ends the skipping and is reported. -/
def reportLoop : Option Pair → List Pair → List Pair
  | _, [] => []
  | none, p :: rest => p :: reportLoop (some p) rest
  | some primaryPair, pair :: rest =>
    if pair.ProxyIdA ≠ primaryPair.ProxyIdA ∨ pair.ProxyIdB ≠ primaryPair.ProxyIdB then
      pair :: reportLoop (some pair) rest
    else reportLoop (some primaryPair) rest

/-- The result of `UpdatePairs`. -/
structure Update (T P : Type) where
  /-- the broad phase afterwards -/
  state : BroadPhase T
  /-- the ids given to the tree's `GetFatAABB` and `Query`, in order -/
  queried : List Int
  /-- the id pairs whose proxies were passed to `callback`, in order -/
  pairs : List Pair
  /-- the arguments `(proxyA, proxyB)` of the calls of `callback`, in order -/
  calls : List (P × P)

/-- `UpdatePairs`, with `srt` for `sort.Sort`. -/
def UpdatePairs (srt : List Pair → List Pair) (tree : DynamicTree T A V P)
    (dtb : BroadPhase T) : Option (Update T P) :=
  let dtb0 := { dtb with _pairCount := 0 }
  match queryLoop tree (List.range dtb0._moveCount) dtb0 with
  | none => none
  | some (dtb1, queried) =>
    let dtb2 := { dtb1 with _moveCount := 0 }
    let dtb3 := { dtb2 with _pairBuffer := srt dtb2._pairBuffer }
    if dtb3._pairCount ≤ dtb3._pairBuffer.length then
      let pairs := reportLoop none (dtb3._pairBuffer.take dtb3._pairCount)
      some
        { state := dtb3
          queried := queried
          pairs := pairs
          calls := pairs.map (fun p =>
            (tree.GetUserData dtb3._tree p.ProxyIdA, tree.GetUserData dtb3._tree p.ProxyIdB)) }
    else none

/-- `AddProxy`: the new state and the returned id. -/
def AddProxy (tree : DynamicTree T A V P) (dtb : BroadPhase T) (proxy : P) :
    Option (BroadPhase T × Int) :=
  let r := tree.AddProxy dtb._tree (tree.proxyAABB proxy) proxy
  let dtb1 := { dtb with _tree := r.1 }
  let dtb2 := { dtb1 with _proxyCount := dtb1._proxyCount + 1 }
  (bufferMove dtb2 r.2).map (fun d => (d, r.2))

/-- `RemoveProxy`. -/
def RemoveProxy (tree : DynamicTree T A V P) (dtb : BroadPhase T) (proxyId : Int) :
    Option (BroadPhase T) :=
  (unBufferMove dtb proxyId).map (fun dtb1 =>
    let dtb2 := { dtb1 with _proxyCount := dtb1._proxyCount - 1 }
    { dtb2 with _tree := tree.RemoveProxy dtb2._tree proxyId })

/-- `MoveProxy`. -/
def MoveProxy (tree : DynamicTree T A V P) (dtb : BroadPhase T) (proxyId : Int)
    (aabb : A) (displacement : V) : Option (BroadPhase T) :=
  let r := tree.MoveProxy dtb._tree proxyId aabb displacement
  let dtb1 := { dtb with _tree := r.1 }
  if r.2 then bufferMove dtb1 proxyId else some dtb1

/-- `TouchProxy`. -/
def TouchProxy (dtb : BroadPhase T) (proxyId : Int) : Option (BroadPhase T) :=
  bufferMove dtb proxyId

/-- The move buffer is as long as its capacity says, holds at most that many entries,
and the capacity is positive. -/
def MoveBufferOK (dtb : BroadPhase T) : Prop :=
  dtb._moveBuffer.length = dtb._moveCapacity ∧ dtb._moveCount ≤ dtb._moveCapacity ∧
    0 < dtb._moveCapacity

/-- The pair buffer is as long as its capacity says, holds at most that many pairs,
and the capacity is positive. -/
def PairBufferOK (dtb : BroadPhase T) : Prop :=
  dtb._pairBuffer.length = dtb._pairCapacity ∧ dtb._pairCount ≤ dtb._pairCapacity ∧
    0 < dtb._pairCapacity

/-- The bounds invariant of the move buffer: `len(_moveBuffer) == _moveCapacity`,
`_moveCapacity >= 16` and `0 <= _moveCount <= _moveCapacity` (counts are naturals). -/
def MoveInv (dtb : BroadPhase T) : Prop :=
  dtb._moveBuffer.length = dtb._moveCapacity ∧ 16 ≤ dtb._moveCapacity ∧
    dtb._moveCount ≤ dtb._moveCapacity

/-- The broad phase `d` has the move buffer, proxy count and tree of `dtb`. -/
def SameMoves (d dtb : BroadPhase T) : Prop :=
  d._moveBuffer = dtb._moveBuffer ∧ d._moveCount = dtb._moveCount ∧
    d._moveCapacity = dtb._moveCapacity ∧ d._proxyCount = dtb._proxyCount ∧ d._tree = dtb._tree

/-- A run of `MoveProxy` calls for one proxy, one call per entry of `calls`. -/
def MoveProxyMany (tree : DynamicTree T A V P) (proxyId : Int) :
    List (A × V) → BroadPhase T → Option (BroadPhase T)
  | [], dtb => some dtb
  | (aabb, displacement) :: rest, dtb =>
    match MoveProxy tree dtb proxyId aabb displacement with
    | none => none
    | some dtb1 => MoveProxyMany tree proxyId rest dtb1

end BroadPhase

/-! ## A small concrete tree for evaluating the broad phase -/

/-- A table-driven tree: the state maps a proxy id to its fat AABB, and an AABB is
represented by the list of proxy ids a query on it visits. -/
def tableTree : DynamicTree (List (Int × List Int)) (List Int) Unit Int where
  AddProxy := fun t a p => (t ++ [(p, a)], p)
  RemoveProxy := fun t id => t.filter (fun e => e.1 ≠ id)
  MoveProxy := fun t id a _ => ((id, a) :: t.filter (fun e => e.1 ≠ id), true)
  GetFatAABB := fun t id => ((t.find? (fun e => e.1 = id)).map Prod.snd).getD []
  GetUserData := fun _ id => id
  Query := fun _ a => a
  proxyAABB := fun _ => []

/-- A tree like `tableTree` in which no move leaves the fat AABB: `MoveProxy` answers
`false` and changes nothing. -/
def stillTree : DynamicTree (List (Int × List Int)) (List Int) Unit Int :=
  { tableTree with MoveProxy := fun t _ _ _ => (t, false) }

/-- A tree state in which the fat AABB of proxy 0 is met by the proxies 0 to 17. -/
def crowdedTable : List (Int × List Int) :=
  [(0, [0, 1, 2, 3, 4, 5, 6, 7, 8, 9, 10, 11, 12, 13, 14, 15, 16, 17])]

/-- A tree state with two separate overlaps: proxy 3 with 4, and proxy 5 with 6. -/
def twoOverlapsTable : List (Int × List Int) := [(3, [3, 4]), (5, [5, 6])]

/-! ## Vectors, rotations, bodies -/

/-- Modelled from the spec: `vect.Vect` of package `vect` (not among the sources), a
2D vector with the fields `X`, `Y` that `transform.go` reads. -/
structure Vect where
  X : ℚ
  Y : ℚ
deriving DecidableEq

namespace Vect

/-- Modelled from the spec: `vect.Add` (and the in-place method `Add`), vector addition. -/
def Add (v1 v2 : Vect) : Vect := ⟨v1.X + v2.X, v1.Y + v2.Y⟩

/-- Modelled from the spec: `vect.Mult` (and the in-place method `Mult`), scaling. -/
def Mult (v : Vect) (s : ℚ) : Vect := ⟨v.X * s, v.Y * s⟩

end Vect

/-- The functions of Go's `math` package that the step uses; they are parameters. -/
structure GoMath where
  Cos : ℚ → ℚ
  Sin : ℚ → ℚ
  Atan2 : ℚ → ℚ → ℚ
  Pow : ℚ → ℚ → ℚ

/-- `type Rotation struct { S, C float64 }`. -/
structure Rotation where
  S : ℚ
  C : ℚ
deriving DecidableEq

namespace Rotation

/-- `Rotation.SetIdentity`. -/
def SetIdentity (_rot : Rotation) : Rotation := { S := 0, C := 1 }

/-- `Rotation.SetAngle`. -/
def SetAngle (m : GoMath) (_rot : Rotation) (angle : ℚ) : Rotation :=
  { C := m.Cos angle, S := m.Sin angle }

/-- `Rotation.Angle`. -/
def Angle (m : GoMath) (rot : Rotation) : ℚ := m.Atan2 rot.S rot.C

/-- `Rotation.RotateVect`. -/
def RotateVect (rot : Rotation) (v : Vect) : Vect :=
  { X := v.X * rot.C - v.Y * rot.S
    Y := v.X * rot.S + v.Y * rot.C }

end Rotation

/-- `type Transform struct { Position vect.Vect; Rotation }`. -/
structure Transform where
  Position : Vect
  Rotation : Rotation
deriving DecidableEq

/-- A `*Space`. -/
abbrev SpaceRef := Nat

/-- The fields of `Body` that `Space.Step`, `AddBody` and `RemoveBody` read or write
(the declaration of `Body` is not among the sources); `isStatic` is what the method
`IsStatic()` answers, `Space` is the pointer to the body's space or nil. -/
structure Body where
  Transform : Transform
  Velocity : Vect
  AngularVelocity : ℚ
  Force : Vect
  Torque : ℚ
  invMass : ℚ
  invI : ℚ
  v_bias : Vect
  w_bias : ℚ
  IgnoreGravity : Bool
  isStatic : Bool
  Space : Option SpaceRef
deriving DecidableEq

/-- `Body.IsStatic`. -/
def Body.IsStatic (body : Body) : Bool := body.isStatic

/-- A `*Body`. -/
abbrev BodyRef := Nat

/-- The field `IsSensor` of a `Shape`. -/
structure Shape where
  IsSensor : Bool
deriving DecidableEq

/-- An `*Arbiter` as the step sees it: its identity and its two shapes. -/
structure Arbiter where
  ref : Nat
  ShapeA : Shape
  ShapeB : Shape
deriving DecidableEq

/-- The global `Settings`, as far as `Space.Step` reads it. -/
structure Settings where
  AutoClearForces : Bool
  CollisionSlop : ℚ
  PositionCorrection : Bool
  CollisionBias : ℚ
  Iterations : Int

/-! ## The space -/

/-- What the pointers of a space lead to: the bodies, and in `ext` all the rest
(contact manager with its arbiters, broad phase, shapes, callbacks). -/
structure World (E : Type) where
  bodies : BodyRef → Body
  ext : E

/-- `type Space struct`; `Bodies` holds the pointers, `mem` what they point to. -/
structure Space (E : Type) where
  Enabled : Bool
  Gravity : Vect
  Bodies : List BodyRef
  Iterations : Int
  prev_dt : ℚ
  mem : World E

/-- A call that `collide` makes: the narrow phase recomputing an arbiter's manifold,
the `OnCollision` callback, the removal of an arbiter. -/
inductive CollideCall where
  | updateManifold (arb : Arbiter)
  | OnCollision (arb : Arbiter)
  | destroyArbiter (arb : Arbiter)
deriving DecidableEq

/-- A call that `Space.Step` makes; `during e` is a call made inside `collide`. -/
inductive Call where
  | findNewContacts
  | collide
  | during (e : CollideCall)
  | UpdateShapes (body : BodyRef)
  | preStep (arb : Arbiter) (inv_dt slop biasCoef : ℚ)
  | applyCachedImpulse (arb : Arbiter) (dt_coef : ℚ)
  | applyImpulse (arb : Arbiter)
  | SetAngle (body : BodyRef) (angle : ℚ)
deriving DecidableEq

/-- The routines `Space.Step` calls whose code is not among the sources.
`arbiterList w` is the traversal of `cm.ArbiterList` from `.Arbiter` along `.Next`
in the world `w`; `collide` also reports the calls it makes. `UpdateShapes` refreshes
the shapes and proxies of a body, which live in `ext`. -/
structure Collab (E : Type) where
  findNewContacts : World E → World E
  collide : World E → World E × List CollideCall
  UpdateShapes : Body → E → E
  arbiterList : World E → List Arbiter
  preStep : Arbiter → ℚ → ℚ → ℚ → World E → World E
  applyCachedImpulse : Arbiter → ℚ → World E → World E
  applyImpulse : Arbiter → World E → World E

namespace Space

variable {E : Type}

/-- A world together with the calls made so far. -/
abbrev Run (E : Type) := World E × List Call

/-- Sequencing: run `f` in the world reached, appending its calls. -/
def Run.andThen (r : Run E) (f : World E → Run E) : Run E :=
  ((f r.1).1, r.2 ++ (f r.1).2)

/-- The test `arb.ShapeA.IsSensor || arb.ShapeB.IsSensor`. -/
def isSensorArbiter (arb : Arbiter) : Bool := arb.ShapeA.IsSensor || arb.ShapeB.IsSensor

/-- `cm.findNewContacts()` followed by `cm.collide()`. -/
def contactsPass (c : Collab E) (w : World E) : Run E :=
  let w1 := c.findNewContacts w
  let r := c.collide w1
  (r.1, Call.findNewContacts :: Call.collide :: r.2.map Call.during)

/-- One iteration of the loop `//Integrate forces`, for the body `b`. -/
def integrateForces (c : Collab E) (st : Settings) (gravity : Vect) (dt : ℚ)
    (w : World E) (b : BodyRef) : World E :=
  let w1 : World E := { w with ext := c.UpdateShapes (w.bodies b) w.ext }
  let body := w1.bodies b
  if body.IsStatic then w1
  else
    let newVel := Vect.Mult body.Force body.invMass
    let newVel := if !body.IgnoreGravity then newVel.Add gravity else newVel
    let newVel := newVel.Mult dt
    let body := { body with Velocity := body.Velocity.Add newVel }
    let body := { body with AngularVelocity := body.AngularVelocity + dt * body.invI * body.Torque }
    let body :=
      if st.AutoClearForces then { body with Force := ⟨0, 0⟩, Torque := 0 } else body
    { w1 with bodies := Function.update w1.bodies b body }

/-- The loop `//Integrate forces` over `space.Bodies`. -/
def forcesPass (c : Collab E) (st : Settings) (gravity : Vect) (dt : ℚ) :
    List BodyRef → World E → Run E
  | [], w => (w, [])
  | b :: rest, w =>
    let r := forcesPass c st gravity dt rest (integrateForces c st gravity dt w b)
    (r.1, Call.UpdateShapes b :: r.2)

/-- A loop `for arb := cm.ArbiterList.Arbiter; arb != nil; arb = arb.Next` that skips
sensor arbiters and otherwise calls `op` (recorded as `ev`). -/
def arbiterLoop (op : Arbiter → World E → World E) (ev : Arbiter → Call) :
    List Arbiter → World E → Run E
  | [], w => (w, [])
  | arb :: rest, w =>
    if isSensorArbiter arb then arbiterLoop op ev rest w
    else
      let r := arbiterLoop op ev rest (op arb w)
      (r.1, ev arb :: r.2)

/-- `biasCoef` as `Space.Step` computes it. -/
def biasCoef (m : GoMath) (st : Settings) (dt : ℚ) : ℚ :=
  if st.PositionCorrection then 1 - m.Pow st.CollisionBias dt else 0

/-- The loop `//Perform pre-steps`. -/
def preStepPass (m : GoMath) (c : Collab E) (st : Settings) (dt : ℚ) (w : World E) : Run E :=
  let inv_dt := 1 / dt
  let slop := st.CollisionSlop
  let bc := biasCoef m st dt
  arbiterLoop (fun arb => c.preStep arb inv_dt slop bc)
    (fun arb => Call.preStep arb inv_dt slop bc) (c.arbiterList w) w

/-- `dt_coef` as `Space.Step` computes it. -/
def dtCoef (prev_dt dt : ℚ) : ℚ :=
  if prev_dt ≠ 0 then dt / prev_dt else 0

/-- The loop calling `arb.applyCachedImpulse(dt_coef)`. -/
def warmStartPass (c : Collab E) (dt_coef : ℚ) (w : World E) : Run E :=
  arbiterLoop (fun arb => c.applyCachedImpulse arb dt_coef)
    (fun arb => Call.applyCachedImpulse arb dt_coef) (c.arbiterList w) w

/-- One iteration of the loop `//Perform Iterations`. -/
def solveOnce (c : Collab E) (w : World E) : Run E :=
  arbiterLoop c.applyImpulse Call.applyImpulse (c.arbiterList w) w

/-- The loop `//Perform Iterations`, `n` iterations. -/
def solvePass (c : Collab E) : Nat → World E → Run E
  | 0, w => (w, [])
  | n + 1, w => (solveOnce c w).andThen (solvePass c n)

/-- One iteration of the loop `//Integrate velocities`, for the body `b`. -/
def integrateVelocity (m : GoMath) (c : Collab E) (dt : ℚ) (w : World E) (b : BodyRef) :
    Run E :=
  let body := w.bodies b
  if body.IsStatic then (w, [])
  else
    let pos := body.Transform.Position.Add (Vect.Mult (Vect.Add body.Velocity body.v_bias) dt)
    let body := { body with Transform := { body.Transform with Position := pos } }
    let rot := body.Transform.Rotation.Angle m
    let angle := rot + dt * (body.AngularVelocity + body.w_bias)
    let body := { body with
      Transform := { body.Transform with Rotation := body.Transform.Rotation.SetAngle m angle } }
    let body := { body with v_bias := ⟨0, 0⟩ }
    let body := { body with w_bias := 0 }
    ({ bodies := Function.update w.bodies b body, ext := c.UpdateShapes body w.ext },
      [Call.SetAngle b angle, Call.UpdateShapes b])

/-- The loop `//Integrate velocities` over `space.Bodies`. -/
def velocitiesPass (m : GoMath) (c : Collab E) (dt : ℚ) : List BodyRef → World E → Run E
  | [], w => (w, [])
  | b :: rest, w => (integrateVelocity m c dt w b).andThen (velocitiesPass m c dt rest)

/-- `Space.Step`: the space afterwards and the calls made, in order. -/
def Step (m : GoMath) (c : Collab E) (st : Settings) (space : Space E) (dt : ℚ) :
    Space E × List Call :=
  if dt ≤ 0 then (space, [])
  else
    let r := (contactsPass c space.mem).andThen fun w =>
      (forcesPass c st space.Gravity dt space.Bodies w).andThen fun w =>
      (preStepPass m c st dt w).andThen fun w =>
      (warmStartPass c (dtCoef space.prev_dt dt) w).andThen fun w =>
      (solvePass c st.Iterations.toNat w).andThen fun w =>
      velocitiesPass m c dt space.Bodies w
    ({ space with mem := r.1, prev_dt := dt }, r.2)

/-- `NewSpace`, over the initial memory `w0` (no bodies added, a fresh broad phase
and contact manager). -/
def NewSpace (w0 : World E) : Space E :=
  { Enabled := true
    Gravity := ⟨0, 0⟩
    Bodies := []
    Iterations := 0
    prev_dt := 0
    mem := w0 }

/-- The routines of a body that create and destroy its shapes' proxies in the broad
phase (not among the sources); they act on `ext`. -/
structure ProxyOps (E : Type) where
  createProxies : Body → E → E
  destroyProxies : Body → E → E

/-- `Space.AddBody`; `self` is the pointer `space`. -/
def AddBody (c : Collab E) (p : ProxyOps E) (self : SpaceRef) (space : Space E)
    (body : BodyRef) : Space E :=
  if (space.mem.bodies body).Space ≠ none then space
  else
    let b1 := { space.mem.bodies body with Space := some self }
    let mem1 : World E := { space.mem with bodies := Function.update space.mem.bodies body b1 }
    let mem2 : World E := { mem1 with ext := p.createProxies (mem1.bodies body) mem1.ext }
    let mem3 : World E := { mem2 with ext := c.UpdateShapes (mem2.bodies body) mem2.ext }
    { space with mem := mem3, Bodies := space.Bodies ++ [body] }

/-- The search loop of `Space.RemoveBody` over `bodies[i:]`: at the first `b == body`
the slice `append(bodies[:i], bodies[i+1:]...)`, here the rest; none when not found. -/
def removeFirst (body : BodyRef) : List BodyRef → Option (List BodyRef)
  | [] => none
  | b :: rest =>
    if b = body then some rest
    else (removeFirst body rest).map (fun r => b :: r)

/-- `Space.RemoveBody`. -/
def RemoveBody (p : ProxyOps E) (space : Space E) (body : BodyRef) : Space E :=
  match removeFirst body space.Bodies with
  | some bodies =>
    let mem1 : World E :=
      { space.mem with ext := p.destroyProxies (space.mem.bodies body) space.mem.ext }
    let b1 := { mem1.bodies body with Space := none }
    { space with
      Bodies := bodies
      mem := { mem1 with bodies := Function.update mem1.bodies body b1 } }
  | none => space

/-- What one iteration of the loop `//Integrate velocities` makes of the body it visits. -/
def velocityBody (m : GoMath) (dt : ℚ) (body : Body) : Body :=
  if body.IsStatic then body
  else
    let pos := body.Transform.Position.Add (Vect.Mult (Vect.Add body.Velocity body.v_bias) dt)
    let body := { body with Transform := { body.Transform with Position := pos } }
    let rot := body.Transform.Rotation.Angle m
    let angle := rot + dt * (body.AngularVelocity + body.w_bias)
    let body := { body with
      Transform := { body.Transform with Rotation := body.Transform.Rotation.SetAngle m angle } }
    let body := { body with v_bias := ⟨0, 0⟩ }
    { body with w_bias := 0 }

/-- The arbiters of `arbs` that are not sensors, in order. -/
def solid (arbs : List Arbiter) : List Arbiter :=
  arbs.filter (fun arb => !isSensorArbiter arb)

/-- The arbiters that `applyImpulse` is due for in `n` solver iterations from the
world `w`: in each iteration the non-sensor arbiters of the list as it then stands. -/
def solveArbiters (c : Collab E) : Nat → World E → List Arbiter
  | 0, _ => []
  | n + 1, w => solid (c.arbiterList w) ++ solveArbiters c n (solveOnce c w).1

/-- The arbiter of an `applyCachedImpulse` call. -/
def Call.warmStartArbiter : Call → Option Arbiter
  | Call.applyCachedImpulse arb _ => some arb
  | _ => none

/-- The arbiters that received `applyCachedImpulse`, in order of the calls. -/
def warmStartArbiters (log : List Call) : List Arbiter :=
  log.filterMap Call.warmStartArbiter

/-- What one iteration of the loop `//Integrate forces` makes of the body it visits. -/
def forcesBody (st : Settings) (gravity : Vect) (dt : ℚ) (body : Body) : Body :=
  if body.IsStatic then body
  else
    let newVel := Vect.Mult body.Force body.invMass
    let newVel := if !body.IgnoreGravity then newVel.Add gravity else newVel
    let newVel := newVel.Mult dt
    let body := { body with Velocity := body.Velocity.Add newVel }
    let body := { body with AngularVelocity := body.AngularVelocity + dt * body.invI * body.Torque }
    if st.AutoClearForces then { body with Force := ⟨0, 0⟩, Torque := 0 } else body

/-- The calls of the velocity loop are `SetAngle` and `UpdateShapes` calls. -/
def IsVelocityCall : Call → Prop
  | Call.SetAngle _ _ => True
  | Call.UpdateShapes _ => True
  | _ => False

/-- The world in which the loop `//Perform pre-steps` of `Step` starts. -/
def worldBeforePreStep (c : Collab E) (st : Settings) (space : Space E) (dt : ℚ) : World E :=
  (forcesPass c st space.Gravity dt space.Bodies (contactsPass c space.mem).1).1

/-- The world in which the warm-start loop of `Step` starts. -/
def worldBeforeWarmStart (m : GoMath) (c : Collab E) (st : Settings) (space : Space E)
    (dt : ℚ) : World E :=
  (preStepPass m c st dt (worldBeforePreStep c st space dt)).1

/-- The world in which the loop `//Perform Iterations` of `Step` starts. -/
def worldBeforeSolve (m : GoMath) (c : Collab E) (st : Settings) (space : Space E)
    (dt : ℚ) : World E :=
  (warmStartPass c (dtCoef space.prev_dt dt) (worldBeforeWarmStart m c st space dt)).1

/-- The world in which the loop `//Integrate velocities` of `Step` starts: the world
as the solver iterations leave it. -/
def worldAfterSolve (m : GoMath) (c : Collab E) (st : Settings) (space : Space E)
    (dt : ℚ) : World E :=
  (solvePass c st.Iterations.toNat (worldBeforeSolve m c st space dt)).1

/-- Modelled from the spec: `ContactManager.collide`, which is not among the sources.
"For every active Arbiter, invoke the narrow-phase collaborator to recompute the
contact manifold; if the shapes no longer overlap, remove and destroy the Arbiter
from the list; otherwise update manifold", and `OnCollision` is "invoked once per
step per Arbiter", which is taken as it stands: once for every arbiter that `collide`
visits. `narrow arb` says whether the narrow phase finds the shapes of `arb`
overlapping; `update` and `destroy` are the effects on the world. -/
def collideSpec (narrow : Arbiter → Bool) (update destroy : Arbiter → World E → World E) :
    List Arbiter → World E → World E × List CollideCall
  | [], w => (w, [])
  | arb :: rest, w =>
    if narrow arb then
      let r := collideSpec narrow update destroy rest (update arb w)
      (r.1, CollideCall.updateManifold arb :: CollideCall.OnCollision arb :: r.2)
    else
      let r := collideSpec narrow update destroy rest (destroy arb w)
      (r.1, CollideCall.updateManifold arb :: CollideCall.OnCollision arb ::
        CollideCall.destroyArbiter arb :: r.2)

/-- The routine `op` applied to the non-sensor arbiters of the arbiter list as it stands
in `w`, one after the other in list order, and to no other arbiter. -/
def applyToSolid (op : Arbiter → World E → World E) (arbiterList : World E → List Arbiter)
    (w : World E) : World E :=
  (solid (arbiterList w)).foldl (fun w1 arb => op arb w1) w

end Space

/-! ## Concrete collaborators for evaluating the step -/

/-- A `math` package whose functions are constantly zero. -/
def zeroMath : GoMath :=
  { Cos := fun _ => 0, Sin := fun _ => 0, Atan2 := fun _ _ => 0, Pow := fun _ _ => 0 }

/-- Collaborators over a world whose `ext` is just the arbiter list: the solver
routines change nothing, `collide` follows `Space.collideSpec` with a narrow phase
that finds every pair overlapping. -/
def listCollab : Collab (List Arbiter) :=
  { findNewContacts := fun w => w
    collide := fun w => Space.collideSpec (fun _ => true) (fun _ w => w) (fun _ w => w) w.ext w
    UpdateShapes := fun _ e => e
    arbiterList := fun w => w.ext
    preStep := fun _ _ _ _ w => w
    applyCachedImpulse := fun _ _ w => w
    applyImpulse := fun _ w => w }

/-- Settings with two solver iterations and automatic clearing of forces. -/
def sampleSettings : Settings :=
  { AutoClearForces := true
    CollisionSlop := 0
    PositionCorrection := false
    CollisionBias := 0
    Iterations := 2 }

/-- A dynamic body at rest with unit mass and inertia, force `(1, 2)`, torque `3`. -/
def sampleBody : Body :=
  { Transform := { Position := ⟨0, 0⟩, Rotation := { S := 0, C := 1 } }
    Velocity := ⟨0, 0⟩
    AngularVelocity := 0
    Force := ⟨1, 2⟩
    Torque := 3
    invMass := 1
    invI := 1
    v_bias := ⟨0, 0⟩
    w_bias := 0
    IgnoreGravity := false
    isStatic := false
    Space := none }

/-- A sensor arbiter (its first shape is a sensor). -/
def sensorArbiter : Arbiter := { ref := 1, ShapeA := ⟨true⟩, ShapeB := ⟨false⟩ }

/-- A sensor arbiter whose second shape is the sensor. -/
def sensorArbiterB : Arbiter := { ref := 3, ShapeA := ⟨false⟩, ShapeB := ⟨true⟩ }

/-- An arbiter between two solid shapes. -/
def solidArbiter : Arbiter := { ref := 2, ShapeA := ⟨false⟩, ShapeB := ⟨false⟩ }

/-- A world of sample bodies with one sensor arbiter and one solid arbiter. -/
def sampleWorld : World (List Arbiter) :=
  { bodies := fun _ => sampleBody, ext := [sensorArbiter, solidArbiter] }

/-- A space with the body `0`, gravity `(0, -10)`, over `sampleWorld`. -/
def sampleSpace : Space (List Arbiter) :=
  { Enabled := true
    Gravity := ⟨0, -10⟩
    Bodies := [0]
    Iterations := 0
    prev_dt := 0
    mem := sampleWorld }

/-- A static body with a velocity, a force and bias velocities on record. -/
def staticBody : Body :=
  { sampleBody with
    isStatic := true
    Velocity := ⟨1, 1⟩
    AngularVelocity := 1
    v_bias := ⟨1, 0⟩
    w_bias := 1 }

/-- A world of static bodies with no arbiter. -/
def staticWorld : World (List Arbiter) :=
  { bodies := fun _ => staticBody, ext := [] }

/-- A dynamic body with velocity `(2, 0)`, bias velocity `(0, 1)`, angular velocity 1
and angular bias 1. -/
def movingBody : Body :=
  { sampleBody with
    Velocity := ⟨2, 0⟩
    AngularVelocity := 1
    v_bias := ⟨0, 1⟩
    w_bias := 1 }

/-- A space with the body `0`, a `movingBody`, and no arbiter. -/
def movingSpace : Space (List Arbiter) :=
  { Enabled := true
    Gravity := ⟨0, 0⟩
    Bodies := [0]
    Iterations := 0
    prev_dt := 0
    mem := { bodies := fun _ => movingBody, ext := [] } }

/-- Proxy routines that change nothing. -/
def idleProxyOps : Space.ProxyOps (List Arbiter) :=
  { createProxies := fun _ e => e, destroyProxies := fun _ e => e }

/-! ## Saving a scene (`src/save.go`) -/

/-- A `*Entity`. -/
abbrev EntityRef := Nat

/-- A `*Scene`. -/
abbrev SceneRef := Nat

/-- The fields of `Entity` that `MarshalEntities` reads or writes (the declaration of
`Entity` is not among the sources). -/
structure Entity where
  Body : Option BodyRef
  Scene : Option SceneRef
deriving DecidableEq

/-- What `MarshalEntities` can change: the entities behind the pointers and the map
`state.SerializedBodies`. -/
structure SaveMem where
  entities : EntityRef → Entity
  SerializedBodies : BodyRef → Bool

/-- The result of `encoder.Encode(entity)`: the bytes written to the buffer, or the
error. It is a parameter (package `json`) and may read all entities. -/
abbrev Encoder := (EntityRef → Entity) → EntityRef → Except String (List Char)

namespace Scene

/-- The loop of `Scene.MarshalEntities` over `scene.Entities`, with the buffer `buf`
written so far; `scene` is the pointer `scene`. -/
def marshalLoop (encode : Encoder) (scene : SceneRef) :
    List EntityRef → SaveMem → List Char → SaveMem × Except String (List Char)
  | [], mem, buf => (mem, Except.ok buf)
  | entity :: rest, mem, buf =>
    let mem1 : SaveMem :=
      match (mem.entities entity).Body with
      | some body => { mem with SerializedBodies := Function.update mem.SerializedBodies body true }
      | none => mem
    let mem2 : SaveMem :=
      { mem1 with
        entities := Function.update mem1.entities entity
          { mem1.entities entity with Scene := none } }
    match encode mem2.entities entity with
    | Except.error err => (mem2, Except.error err)
    | Except.ok bytes =>
      let buf1 := buf ++ bytes ++ [',']
      let mem3 : SaveMem :=
        { mem2 with
          entities := Function.update mem2.entities entity
            { mem2.entities entity with Scene := some scene } }
      marshalLoop encode scene rest mem3 buf1

/-- `Scene.MarshalEntities`: the memory afterwards and the returned bytes or error. -/
def MarshalEntities (encode : Encoder) (scene : SceneRef) (entities : List EntityRef)
    (mem : SaveMem) : SaveMem × Except String (List Char) :=
  let r := marshalLoop encode scene entities mem ['[']
  match r.2 with
  | Except.error err => (r.1, Except.error err)
  | Except.ok buf =>
    let buf1 := if entities.length > 0 then buf.dropLast else buf
    (r.1, Except.ok (buf1 ++ [']']))

end Scene

/-- An encoder that fails on the entity 1 and writes `{}` for every other entity. -/
def brittleEncoder : Encoder :=
  fun _ entity => if entity = 1 then Except.error "json: unsupported value" else Except.ok ['{', '}']

/-- A memory in which every entity belongs to the scene 7 and has no body. -/
def sceneMem : SaveMem :=
  { entities := fun _ => { Body := none, Scene := some 7 }
    SerializedBodies := fun _ => false }

/-- The fresh broad phase over `twoOverlapsTable` after `TouchProxy(3)`: one buffered
move, an empty pair buffer. -/
def touchedPhase : BroadPhase (List (Int × List Int)) :=
  { _moveBuffer := 3 :: List.replicate 15 0
    _moveCapacity := 16
    _moveCount := 1
    _pairBuffer := List.replicate 16 ⟨0, 0⟩
    _pairCapacity := 16
    _pairCount := 0
    _proxyCount := 0
    _queryProxyId := 0
    _tree := twoOverlapsTable }

/-- A tree like `tableTree` in which the initial AABB of the proxy `p` meets the
proxies `p` and `p + 1`. -/
def pairedTree : DynamicTree (List (Int × List Int)) (List Int) Unit Int :=
  { tableTree with proxyAABB := fun p => [p, p + 1] }

/-- A world's `ext` that keeps a record: the arbiter list and the calls that the
arbiters' routines have received, in order. -/
structure Recorded where
  arbiters : List Arbiter
  received : List Call

/-- Collaborators that record what they receive: `preStep`, `applyCachedImpulse` and
`applyImpulse` append the call, with its arguments, to `received`; the others are as
in `listCollab`. -/
def recordingCollab : Collab Recorded :=
  { findNewContacts := fun w => w
    collide := fun w =>
      Space.collideSpec (fun _ => true) (fun _ w => w) (fun _ w => w) w.ext.arbiters w
    UpdateShapes := fun _ e => e
    arbiterList := fun w => w.ext.arbiters
    preStep := fun arb inv_dt slop biasCoef w =>
      { w with ext := { w.ext with
          received := w.ext.received ++ [Call.preStep arb inv_dt slop biasCoef] } }
    applyCachedImpulse := fun arb dt_coef w =>
      { w with ext := { w.ext with
          received := w.ext.received ++ [Call.applyCachedImpulse arb dt_coef] } }
    applyImpulse := fun arb w =>
      { w with ext := { w.ext with received := w.ext.received ++ [Call.applyImpulse arb] } } }

/-- A space without bodies, with the arbiter list `sensorArbiter`, `solidArbiter`,
`sensorArbiterB` and an empty record; `prev_dt` is given. -/
def recordingSpace (prev_dt : ℚ) : Space Recorded :=
  { Enabled := true
    Gravity := ⟨0, 0⟩
    Bodies := []
    Iterations := 0
    prev_dt := prev_dt
    mem := { bodies := fun _ => sampleBody
             ext :=
               { arbiters := [sensorArbiter, solidArbiter, sensorArbiterB], received := [] } } }

/-! ## The timestep over `float64` with infinities and NaN -/

/-- A `float64` as far as the timestep of `Space.Step` needs it: a finite value (taken
exactly), an infinity, or NaN. -/
inductive F64 where
  | fin (q : ℚ)
  | posInf
  | negInf
  | nan
deriving DecidableEq

namespace F64

/-- The comparison `x <= 0.0`. -/
def leZero : F64 → Bool
  | fin q => decide (q ≤ 0)
  | posInf => false
  | negInf => true
  | nan => false

/-- The comparison `x > 0.0`. -/
def gtZero : F64 → Bool
  | fin q => decide (0 < q)
  | posInf => true
  | negInf => false
  | nan => false

/-- The comparison `x != 0.0`. -/
def neZero : F64 → Bool
  | fin q => decide (q ≠ 0)
  | posInf => true
  | negInf => true
  | nan => true

/-- The quotient `x / y` for `y != 0.0` (the only case `Space.Step` divides in): exact
on finite values, a finite value over an infinity is zero, an infinity over a finite
value is an infinity of the product's sign, an infinity over an infinity and anything
with NaN is NaN. -/
def div : F64 → F64 → F64
  | nan, _ => nan
  | _, nan => nan
  | fin a, fin b => fin (a / b)
  | fin _, posInf => fin 0
  | fin _, negInf => fin 0
  | posInf, fin b => if 0 < b then posInf else negInf
  | negInf, fin b => if 0 < b then negInf else posInf
  | posInf, posInf => nan
  | posInf, negInf => nan
  | negInf, posInf => nan
  | negInf, negInf => nan

end F64

/-- The timestep scalars of `Space.Step` over `float64`: for `dt <= 0.0` the step
returns at once (`none`); otherwise `dt_coef` is `0.0`, or `dt/space.prev_dt` when
`space.prev_dt != 0.0`, and the step ends with `space.prev_dt = dt`. The result is
`dt_coef` and the `prev_dt` the step leaves. -/
def stepScalars (prev_dt dt : F64) : Option (F64 × F64) :=
  if dt.leZero then none
  else
    let dt_coef := if prev_dt.neZero then F64.div dt prev_dt else F64.fin 0
    some (dt_coef, dt)

/-! # Theorems -/

/-! ## The comparator and the sorting contract -/

theorem Pair.less_iff (a b : Pair) :
    a.less b = true ↔
      ¬ (a.ProxyIdA < b.ProxyIdA ∨ (a.ProxyIdA = b.ProxyIdA ∧ a.ProxyIdB < b.ProxyIdB)) := by
  unfold Pair.less
  split_ifs <;> simp_all

instance : IsTotal Pair (fun a b => a.less b = true) :=
  ⟨fun a b => by simp only [Pair.less_iff]; omega⟩

instance : IsTrans Pair (fun a b => a.less b = true) :=
  ⟨fun a b c => by simp only [Pair.less_iff]; omega⟩

instance : IsAntisymm Pair (fun a b => a.less b = true) :=
  ⟨fun a b => by
    simp only [Pair.less_iff]
    intro h1 h2
    cases a; cases b
    simp only [Pair.mk.injEq] at *
    omega⟩

theorem sortDesc_sortsByLess : SortsByLess sortDesc :=
  fun l => ⟨List.perm_insertionSort _ l, List.sorted_insertionSort _ l⟩

/-- The contract determines the sorted slice: any routine meeting it agrees with
`sortDesc`. -/
theorem sortsByLess_unique {srt : List Pair → List Pair} (h : SortsByLess srt) :
    srt = sortDesc := by
  funext l
  exact List.eq_of_perm_of_sorted ((h l).1.trans (sortDesc_sortsByLess l).1.symm)
    (h l).2 (sortDesc_sortsByLess l).2

/-! ## Frame lemmas of the broad phase -/

namespace BroadPhase

variable {T A V P : Type}

theorem bufferMove_spec (dtb : BroadPhase T) (proxyId : Int) (h : MoveBufferOK dtb) :
    ∃ d, bufferMove dtb proxyId = some d ∧
      d._moveCount = dtb._moveCount + 1 ∧
      d._moveBuffer[dtb._moveCount]? = some proxyId ∧
      (∀ i, i < dtb._moveCount → d._moveBuffer[i]? = dtb._moveBuffer[i]?) ∧
      d._pairBuffer = dtb._pairBuffer ∧ d._pairCapacity = dtb._pairCapacity ∧
      d._pairCount = dtb._pairCount ∧ d._proxyCount = dtb._proxyCount ∧
      d._queryProxyId = dtb._queryProxyId ∧ d._tree = dtb._tree ∧
      d._moveCapacity = (if dtb._moveCount = dtb._moveCapacity then dtb._moveCapacity * 2
        else dtb._moveCapacity) ∧
      MoveBufferOK d := by
  obtain ⟨hl, hc, hp⟩ := h
  unfold bufferMove
  by_cases hfull : dtb._moveCount = dtb._moveCapacity
  · have hlt : dtb._moveCount < (dtb._moveBuffer ++ List.replicate dtb._moveCapacity 0).length := by
      simp; omega
    simp only [hfull, if_true] at hlt ⊢
    rw [if_pos hlt]
    refine ⟨_, rfl, rfl, ?_, ?_, rfl, rfl, rfl, rfl, rfl, rfl, rfl, ?_⟩
    · exact List.getElem?_set_self hlt
    · intro i hi
      have : dtb._moveCapacity ≠ i := by omega
      show (List.set _ _ _)[i]? = _
      rw [List.getElem?_set_ne this, List.getElem?_append_left (by omega)]
    · refine ⟨?_, ?_, ?_⟩ <;> simp <;> omega
  · have hlt : dtb._moveCount < dtb._moveBuffer.length := by omega
    simp only [hfull, if_false]
    rw [if_pos hlt]
    refine ⟨_, rfl, rfl, ?_, ?_, rfl, rfl, rfl, rfl, rfl, rfl, rfl, ?_⟩
    · exact List.getElem?_set_self hlt
    · intro i hi
      have : dtb._moveCount ≠ i := by omega
      exact List.getElem?_set_ne this
    · refine ⟨?_, ?_, ?_⟩ <;> simp <;> omega

theorem SameMoves.rfl' (dtb : BroadPhase T) : SameMoves dtb dtb := ⟨rfl, rfl, rfl, rfl, rfl⟩

theorem SameMoves.trans' {a b c : BroadPhase T} (h1 : SameMoves a b) (h2 : SameMoves b c) :
    SameMoves a c :=
  ⟨h1.1.trans h2.1, h1.2.1.trans h2.2.1, h1.2.2.1.trans h2.2.2.1,
    h1.2.2.2.1.trans h2.2.2.2.1, h1.2.2.2.2.trans h2.2.2.2.2⟩

theorem queryCallback_frame {dtb d : BroadPhase T} {proxyId : Int} {b : Bool}
    (h : queryCallback dtb proxyId = some (d, b)) :
    SameMoves d dtb ∧ d._queryProxyId = dtb._queryProxyId ∧ b = true := by
  unfold queryCallback at h
  by_cases h1 : proxyId = dtb._queryProxyId
  · rw [if_pos h1] at h
    simp only [Option.some.injEq, Prod.mk.injEq] at h
    obtain ⟨rfl, rfl⟩ := h
    exact ⟨⟨rfl, rfl, rfl, rfl, rfl⟩, rfl, rfl⟩
  · rw [if_neg h1] at h
    by_cases h2 : dtb._pairCount = dtb._pairCapacity
    · simp only [if_pos h2] at h
      split at h
      · simp only [Option.some.injEq, Prod.mk.injEq] at h
        obtain ⟨rfl, rfl⟩ := h
        exact ⟨⟨rfl, rfl, rfl, rfl, rfl⟩, rfl, rfl⟩
      · exact Option.noConfusion h
    · simp only [if_neg h2] at h
      split at h
      · simp only [Option.some.injEq, Prod.mk.injEq] at h
        obtain ⟨rfl, rfl⟩ := h
        exact ⟨⟨rfl, rfl, rfl, rfl, rfl⟩, rfl, rfl⟩
      · exact Option.noConfusion h

theorem runQuery_frame (ids : List Int) {dtb d : BroadPhase T}
    (h : runQuery ids dtb = some d) :
    SameMoves d dtb ∧ d._queryProxyId = dtb._queryProxyId := by
  induction ids generalizing dtb with
  | nil =>
    simp only [runQuery, Option.some.injEq] at h
    subst h
    exact ⟨SameMoves.rfl' _, rfl⟩
  | cons id rest ih =>
    unfold runQuery at h
    cases hq : queryCallback dtb id with
    | none => simp [hq] at h
    | some r =>
      obtain ⟨d1, b⟩ := r
      obtain ⟨hs, hqid, hb⟩ := queryCallback_frame hq
      subst hb
      simp only [hq] at h
      obtain ⟨hs2, hq2⟩ := ih h
      exact ⟨hs2.trans' hs, hq2.trans hqid⟩

theorem queryLoop_frame (tree : DynamicTree T A V P) (js : List Nat) {dtb d : BroadPhase T}
    {q : List Int} (h : queryLoop tree js dtb = some (d, q)) :
    SameMoves d dtb ∧ (∀ j ∈ js, j < dtb._moveBuffer.length) ∧
      q = (js.filterMap (fun j => dtb._moveBuffer[j]?)).filter (fun x => decide (x ≠ -1)) := by
  induction js generalizing dtb q with
  | nil =>
    simp only [queryLoop, Option.some.injEq, Prod.mk.injEq] at h
    obtain ⟨rfl, rfl⟩ := h
    exact ⟨SameMoves.rfl' _, by simp, by simp⟩
  | cons j js ih =>
    unfold queryLoop at h
    cases hj : dtb._moveBuffer[j]? with
    | none => simp [hj] at h
    | some x =>
      have hjlt : j < dtb._moveBuffer.length := by
        by_contra hcon
        rw [List.getElem?_eq_none (by omega)] at hj
        exact Option.noConfusion hj
      simp only [hj] at h
      by_cases hx : x = -1
      · simp only [hx, if_true] at h
        obtain ⟨hs, hlen, hq⟩ := ih h
        refine ⟨hs.trans' ⟨rfl, rfl, rfl, rfl, rfl⟩, ?_, ?_⟩
        · intro k hk
          rcases List.mem_cons.1 hk with rfl | hk
          · exact hjlt
          · exact hlen k hk
        · rw [hq]
          simp [List.filterMap_cons, hj, hx]
      · simp only [hx, if_false] at h
        cases hr : runQuery (tree.Query dtb._tree (tree.GetFatAABB dtb._tree x))
            { dtb with _queryProxyId := x } with
        | none => simp [hr] at h
        | some d2 =>
          simp only [hr] at h
          obtain ⟨hs2, _⟩ := runQuery_frame _ hr
          cases hl : queryLoop tree js d2 with
          | none => simp [hl] at h
          | some r =>
            obtain ⟨d3, q3⟩ := r
            simp only [hl, Option.map_some', Option.some.injEq, Prod.mk.injEq] at h
            obtain ⟨rfl, rfl⟩ := h
            obtain ⟨hs3, hlen, hq⟩ := ih hl
            have hbuf : d2._moveBuffer = dtb._moveBuffer := hs2.1
            refine ⟨hs3.trans' (hs2.trans' ⟨rfl, rfl, rfl, rfl, rfl⟩), ?_, ?_⟩
            · intro k hk
              rcases List.mem_cons.1 hk with rfl | hk
              · exact hjlt
              · rw [← hbuf]; exact hlen k hk
            · rw [hq, hbuf]
              simp [List.filterMap_cons, hj, hx]

theorem filterMap_range_getElem? {α : Type} (l : List α) (n : Nat) (h : n ≤ l.length) :
    (List.range n).filterMap (fun j => l[j]?) = l.take n := by
  induction n with
  | zero => simp
  | succ n ih =>
    have hn : n < l.length := by omega
    rw [List.range_succ, List.filterMap_append, ih (by omega), List.take_succ]
    simp [List.getElem?_eq_getElem hn]

theorem UpdatePairs_frame (srt : List Pair → List Pair) (tree : DynamicTree T A V P)
    {dtb : BroadPhase T} {u : Update T P} (h : UpdatePairs srt tree dtb = some u) :
    u.queried = (dtb._moveBuffer.take dtb._moveCount).filter (fun x => decide (x ≠ -1)) ∧
      u.state._moveCount = 0 ∧ u.state._moveCapacity = dtb._moveCapacity ∧
      u.state._moveBuffer = dtb._moveBuffer ∧ u.state._tree = dtb._tree ∧
      u.state._proxyCount = dtb._proxyCount := by
  unfold UpdatePairs at h
  cases hl : queryLoop tree (List.range dtb._moveCount) { dtb with _pairCount := 0 } with
  | none => simp [hl] at h
  | some r =>
    obtain ⟨d1, q⟩ := r
    simp only [hl] at h
    split_ifs at h
    simp only [Option.some.injEq] at h
    subst h
    obtain ⟨hs, hlen, hq⟩ := queryLoop_frame tree _ hl
    have hle : dtb._moveCount ≤ dtb._moveBuffer.length := by
      rcases Nat.eq_zero_or_pos dtb._moveCount with h0 | hpos
      · omega
      · have := hlen (dtb._moveCount - 1) (List.mem_range.2 (by omega))
        simp only at this
        omega
    refine ⟨?_, rfl, hs.2.2.1, hs.1, hs.2.2.2.2, hs.2.2.2.1⟩
    simp only [hq]
    rw [filterMap_range_getElem? _ _ hle]

end BroadPhase

/-! ## The calls of a step -/

namespace Space

variable {E : Type}

theorem arbiterLoop_log (op : Arbiter → World E → World E) (ev : Arbiter → Call)
    (arbs : List Arbiter) (w : World E) :
    (arbiterLoop op ev arbs w).2 = (solid arbs).map ev := by
  induction arbs generalizing w with
  | nil => rfl
  | cons arb rest ih =>
    unfold arbiterLoop
    by_cases hs : isSensorArbiter arb = true
    · rw [if_pos hs, ih]
      simp [solid, List.filter_cons, hs]
    · rw [if_neg hs]
      simp only [ih]
      simp [solid, List.filter_cons, hs]

theorem forcesPass_log (c : Collab E) (st : Settings) (gravity : Vect) (dt : ℚ)
    (bodies : List BodyRef) (w : World E) :
    (forcesPass c st gravity dt bodies w).2 = bodies.map Call.UpdateShapes := by
  induction bodies generalizing w with
  | nil => rfl
  | cons b rest ih => simp only [forcesPass, ih, List.map_cons]

theorem solvePass_log (c : Collab E) (n : Nat) (w : World E) :
    (solvePass c n w).2 = (solveArbiters c n w).map Call.applyImpulse := by
  induction n generalizing w with
  | zero => rfl
  | succ n ih =>
    simp only [solvePass, Run.andThen, solveArbiters, List.map_append, ih, solveOnce,
      arbiterLoop_log]

theorem velocitiesPass_log (m : GoMath) (c : Collab E) (dt : ℚ) (bodies : List BodyRef)
    (w : World E) : ∀ call ∈ (velocitiesPass m c dt bodies w).2, IsVelocityCall call := by
  induction bodies generalizing w with
  | nil => intro call h; simp [velocitiesPass] at h
  | cons b rest ih =>
    intro call h
    simp only [velocitiesPass, Run.andThen, List.mem_append] at h
    rcases h with h | h
    · dsimp only [integrateVelocity] at h
      split_ifs at h
      · simp at h
      · simp only [List.mem_cons, List.mem_singleton, List.not_mem_nil, or_false] at h
        rcases h with rfl | rfl <;> trivial
    · exact ih _ call h

/-- The result of a step with `dt > 0`, pass by pass. -/
theorem Step_log (m : GoMath) (c : Collab E) (st : Settings) (space : Space E) (dt : ℚ)
    (h : 0 < dt) :
    (Step m c st space dt).1 =
      { space with
        mem := (velocitiesPass m c dt space.Bodies
          (solvePass c st.Iterations.toNat (worldBeforeSolve m c st space dt)).1).1
        prev_dt := dt } ∧
    (Step m c st space dt).2 =
      Call.findNewContacts :: Call.collide ::
        ((c.collide (c.findNewContacts space.mem)).2.map Call.during ++
        (space.Bodies.map Call.UpdateShapes ++
        ((solid (c.arbiterList (worldBeforePreStep c st space dt))).map
            (fun arb => Call.preStep arb (1 / dt) st.CollisionSlop (biasCoef m st dt)) ++
        ((solid (c.arbiterList (worldBeforeWarmStart m c st space dt))).map
            (fun arb => Call.applyCachedImpulse arb (dtCoef space.prev_dt dt)) ++
        ((solveArbiters c st.Iterations.toNat (worldBeforeSolve m c st space dt)).map
            Call.applyImpulse ++
        (velocitiesPass m c dt space.Bodies
          (solvePass c st.Iterations.toNat (worldBeforeSolve m c st space dt)).1).2))))) := by
  constructor
  · unfold Step
    rw [if_neg (not_le.2 h)]
    rfl
  · unfold Step
    rw [if_neg (not_le.2 h)]
    simp only [Run.andThen, forcesPass_log, solvePass_log, preStepPass, warmStartPass,
      arbiterLoop_log, contactsPass, List.cons_append, worldBeforeSolve, worldBeforeWarmStart,
      worldBeforePreStep]

end Space

/-! ## Helper lemmas for the claims on the broad phase -/

namespace BroadPhase

variable {T A V P : Type}

theorem UpdatePairs_queried (srt : List Pair → List Pair) (tree : DynamicTree T A V P)
    (dtb d : BroadPhase T) (q : List Int)
    (hq : queryLoop tree (List.range dtb._moveCount) { dtb with _pairCount := 0 } = some (d, q))
    (hlen : d._pairCount ≤ (srt d._pairBuffer).length) :
    (UpdatePairs srt tree dtb).map (fun u => u.queried) = some q := by
  unfold UpdatePairs
  simp only [hq]
  rw [if_pos hlen]
  rfl

theorem MoveProxyMany_still (tree : DynamicTree T A V P) (proxyId : Int)
    (hstill : ∀ t a v, (tree.MoveProxy t proxyId a v).2 = false)
    (calls : List (A × V)) (dtb : BroadPhase T) :
    ∃ dn, MoveProxyMany tree proxyId calls dtb = some dn ∧
      dn._moveCount = dtb._moveCount ∧ dn._moveBuffer = dtb._moveBuffer ∧
      dn._moveCapacity = dtb._moveCapacity := by
  induction calls generalizing dtb with
  | nil => exact ⟨dtb, rfl, rfl, rfl, rfl⟩
  | cons c rest ih =>
    obtain ⟨a, v⟩ := c
    obtain ⟨dn, h1, h2, h3, h4⟩ :=
      ih { dtb with _tree := (tree.MoveProxy dtb._tree proxyId a v).1 }
    refine ⟨dn, ?_, h2, h3, h4⟩
    simp only [MoveProxyMany, MoveProxy, hstill]
    exact h1

end BroadPhase

/-! ## Helper lemmas for the claims on the step -/

namespace Space

variable {E : Type}

theorem mem_Step_applyCachedImpulse (m : GoMath) (c : Collab E) (st : Settings)
    (space : Space E) (dt : ℚ) (h : 0 < dt) (arb : Arbiter) (coef : ℚ)
    (hmem : Call.applyCachedImpulse arb coef ∈ (Step m c st space dt).2) :
    coef = dtCoef space.prev_dt dt := by
  rw [(Step_log m c st space dt h).2] at hmem
  simp only [List.mem_cons, List.mem_append, List.mem_map, reduceCtorEq, false_or,
    and_false, exists_false, Call.applyCachedImpulse.injEq, exists_eq_right_right] at hmem
  rcases hmem with ⟨a, _, _, rfl⟩ | hmem
  · rfl
  · exact (velocitiesPass_log m c dt _ _ _ hmem).elim

theorem filterMap_map_none {α β γ : Type} (g : β → Option γ) (f : α → β) (l : List α)
    (h : ∀ x, g (f x) = none) : (l.map f).filterMap g = [] := by
  induction l with
  | nil => rfl
  | cons x xs ih => simp [List.filterMap_cons, h x, ih]

theorem filterMap_map_some {α β : Type} (g : β → Option α) (f : α → β) (l : List α)
    (h : ∀ x, g (f x) = some x) : (l.map f).filterMap g = l := by
  induction l with
  | nil => rfl
  | cons x xs ih => simp [List.filterMap_cons, h x, ih]

theorem filterMap_velocityCalls {γ : Type} (g : Call → Option γ) (l : List Call)
    (hl : ∀ call ∈ l, IsVelocityCall call)
    (hg : ∀ call, IsVelocityCall call → g call = none) : l.filterMap g = [] := by
  induction l with
  | nil => rfl
  | cons x xs ih =>
    rw [List.filterMap_cons, hg x (hl x (List.mem_cons_self _ _))]
    exact ih (fun call hc => hl call (List.mem_cons_of_mem _ hc))

theorem warmStartArbiters_Step (m : GoMath) (c : Collab E) (st : Settings) (space : Space E)
    (dt : ℚ) (h : 0 < dt) :
    warmStartArbiters (Step m c st space dt).2 =
      solid (c.arbiterList (worldBeforeWarmStart m c st space dt)) := by
  rw [(Step_log m c st space dt h).2]
  simp only [warmStartArbiters, List.filterMap_cons, List.filterMap_append, Call.warmStartArbiter,
    filterMap_map_none Call.warmStartArbiter Call.during _ (fun _ => rfl),
    filterMap_map_none Call.warmStartArbiter Call.UpdateShapes _ (fun _ => rfl),
    filterMap_map_none Call.warmStartArbiter (fun arb => Call.preStep arb (1 / dt) st.CollisionSlop (biasCoef m st dt)) _ (fun _ => rfl),
    filterMap_map_some Call.warmStartArbiter (fun arb => Call.applyCachedImpulse arb (dtCoef space.prev_dt dt)) _ (fun _ => rfl),
    filterMap_map_none Call.warmStartArbiter Call.applyImpulse _ (fun _ => rfl),
    filterMap_velocityCalls Call.warmStartArbiter _ (velocitiesPass_log m c dt _ _)
      (fun call hc => by cases call <;> first | rfl | exact hc.elim),
    List.nil_append, List.append_nil]

theorem arbiterLoop_world (op : Arbiter → World E → World E) (ev : Arbiter → Call)
    (arbs : List Arbiter) (w : World E) :
    (arbiterLoop op ev arbs w).1 = (solid arbs).foldl (fun w1 arb => op arb w1) w := by
  induction arbs generalizing w with
  | nil => rfl
  | cons arb rest ih =>
    unfold arbiterLoop
    by_cases hs : isSensorArbiter arb = true
    · rw [if_pos hs, ih]
      simp [solid, List.filter_cons, hs]
    · rw [if_neg hs]
      simp only [ih]
      simp [solid, List.filter_cons, hs]

theorem warmStartPass_world (c : Collab E) (dt_coef : ℚ) (w : World E) :
    (warmStartPass c dt_coef w).1 =
      applyToSolid (fun arb => c.applyCachedImpulse arb dt_coef) c.arbiterList w := by
  unfold warmStartPass applyToSolid
  exact arbiterLoop_world _ _ _ _

theorem integrateForces_other (c : Collab E) (st : Settings) (gravity : Vect) (dt : ℚ)
    (w : World E) (b b' : BodyRef) (hne : b' ≠ b) :
    (integrateForces c st gravity dt w b).bodies b' = w.bodies b' := by
  dsimp only [integrateForces]
  split_ifs <;> simp [Function.update_noteq hne]

theorem forcesPass_not_mem (c : Collab E) (st : Settings) (gravity : Vect) (dt : ℚ)
    (bodies : List BodyRef) (w : World E) (b : BodyRef) (hb : b ∉ bodies) :
    (forcesPass c st gravity dt bodies w).1.bodies b = w.bodies b := by
  induction bodies generalizing w with
  | nil => rfl
  | cons x rest ih =>
    simp only [List.mem_cons, not_or] at hb
    simp only [forcesPass]
    rw [ih _ hb.2, integrateForces_other c st gravity dt w x b hb.1]

theorem integrateForces_self (c : Collab E) (st : Settings) (gravity : Vect) (dt : ℚ)
    (w : World E) (b : BodyRef) :
    (integrateForces c st gravity dt w b).bodies b = forcesBody st gravity dt (w.bodies b) := by
  dsimp only [integrateForces, forcesBody]
  split_ifs <;> simp [Function.update_same]

theorem forcesPass_mem (c : Collab E) (st : Settings) (gravity : Vect) (dt : ℚ)
    (bodies : List BodyRef) (w : World E) (b : BodyRef) (hnd : bodies.Nodup) (hb : b ∈ bodies) :
    (forcesPass c st gravity dt bodies w).1.bodies b = forcesBody st gravity dt (w.bodies b) := by
  induction bodies generalizing w with
  | nil => simp at hb
  | cons x rest ih =>
    obtain ⟨hx, hrest⟩ := List.nodup_cons.1 hnd
    simp only [forcesPass]
    rcases List.mem_cons.1 hb with rfl | hr
    · rw [forcesPass_not_mem c st gravity dt rest _ b hx, integrateForces_self]
    · have hne : b ≠ x := fun h => hx (h ▸ hr)
      rw [ih _ hrest hr, integrateForces_other c st gravity dt w x b hne]

theorem worldBeforeSolve_eq (m : GoMath) (c : Collab E) (st : Settings) (space : Space E)
    (dt : ℚ) :
    worldBeforeSolve m c st space dt =
      applyToSolid (fun arb => c.applyCachedImpulse arb (dtCoef space.prev_dt dt))
        c.arbiterList (worldBeforeWarmStart m c st space dt) := by
  unfold worldBeforeSolve
  exact warmStartPass_world _ _ _

theorem stepScalars_fin (prev_dt dt : ℚ) (h : 0 < dt) :
    stepScalars (F64.fin prev_dt) (F64.fin dt) =
      some (F64.fin (if prev_dt ≠ 0 then dt / prev_dt else 0), F64.fin dt) := by
  unfold stepScalars
  have h1 : (F64.fin dt).leZero = false := by simp [F64.leZero, h]
  rw [h1]
  by_cases hp : prev_dt = 0
  · simp [F64.neZero, hp]
  · simp [F64.neZero, hp, F64.div]

end Space

/-! ## The claims on the broad phase -/

namespace BroadPhase

variable {T A V P : Type}

/-- C1 (pair uniqueness; the code falls short of it). A fresh broad phase, proxy 0
touched, and a tree whose query on the fat AABB of proxy 0 visits the proxies 0 to 17:
seventeen pairs are found, so the pair buffer (capacity 16) grows once. Growing puts the
sixteen new zero entries in front of the recorded pairs, and the seventeenth pair, written
at index 16, overwrites the first recorded pair `(0, 1)`. With any sorting routine meeting
the contract, `UpdatePairs` queries proxy 0, whose query visits proxy 1, and yet the
callback is never invoked for the pair of 0 and 1. -/
theorem UpdatePairs_growth_drops_found_pair (srt : List Pair → List Pair)
    (hsrt : SortsByLess srt) :
    ∃ dtb u, TouchProxy (NewBroadPhase crowdedTable) 0 = some dtb ∧
      UpdatePairs srt tableTree dtb = some u ∧
      u.queried = [0] ∧
      (1 : Int) ∈ tableTree.Query dtb._tree (tableTree.GetFatAABB dtb._tree 0) ∧
      u.pairs = [⟨0, 17⟩, ⟨0, 16⟩, ⟨0, 15⟩, ⟨0, 14⟩, ⟨0, 13⟩, ⟨0, 12⟩, ⟨0, 11⟩, ⟨0, 10⟩,
        ⟨0, 9⟩, ⟨0, 8⟩, ⟨0, 7⟩, ⟨0, 6⟩, ⟨0, 5⟩, ⟨0, 4⟩, ⟨0, 3⟩, ⟨0, 2⟩, ⟨0, 0⟩] ∧
      u.pairs.count ⟨0, 1⟩ = 0 ∧ u.pairs.count ⟨1, 0⟩ = 0 := by
  obtain rfl := sortsByLess_unique hsrt
  refine ⟨_, _, rfl, rfl, ?_⟩
  decide

/-- The scenario of `UpdatePairs_growth_drops_found_pair` with the insertion sort. -/
theorem UpdatePairs_growth_drops_found_pair_witness :
    SortsByLess sortDesc ∧
    ∃ dtb u, TouchProxy (NewBroadPhase crowdedTable) 0 = some dtb ∧
      UpdatePairs sortDesc tableTree dtb = some u ∧
      u.queried = [0] ∧
      (1 : Int) ∈ tableTree.Query dtb._tree (tableTree.GetFatAABB dtb._tree 0) ∧
      u.pairs = [⟨0, 17⟩, ⟨0, 16⟩, ⟨0, 15⟩, ⟨0, 14⟩, ⟨0, 13⟩, ⟨0, 12⟩, ⟨0, 11⟩, ⟨0, 10⟩,
        ⟨0, 9⟩, ⟨0, 8⟩, ⟨0, 7⟩, ⟨0, 6⟩, ⟨0, 5⟩, ⟨0, 4⟩, ⟨0, 3⟩, ⟨0, 2⟩, ⟨0, 0⟩] ∧
      u.pairs.count ⟨0, 1⟩ = 0 ∧ u.pairs.count ⟨1, 0⟩ = 0 :=
  ⟨sortDesc_sortsByLess, UpdatePairs_growth_drops_found_pair sortDesc sortDesc_sortsByLess⟩

/-- C2 (no self-pairing; the code falls short of it). In the scenario of C1 the grown
pair buffer holds sixteen recorded pairs and sixteen zero entries while `_pairCount` is
17, so after sorting the seventeenth reported entry is a zero entry: the callback is
invoked with the proxy of id 0 for both arguments. -/
theorem UpdatePairs_growth_reports_self_pair (srt : List Pair → List Pair)
    (hsrt : SortsByLess srt) :
    ∃ dtb u, TouchProxy (NewBroadPhase crowdedTable) 0 = some dtb ∧
      UpdatePairs srt tableTree dtb = some u ∧
      u.state._pairCapacity = 32 ∧ u.state._pairCount = 17 ∧
      (⟨0, 0⟩ : Pair) ∈ u.pairs ∧
      (tableTree.GetUserData u.state._tree 0, tableTree.GetUserData u.state._tree 0) ∈ u.calls ∧
      ∃ p ∈ u.pairs, p.ProxyIdA = p.ProxyIdB := by
  obtain rfl := sortsByLess_unique hsrt
  refine ⟨_, _, rfl, rfl, ?_⟩
  decide

/-- The scenario of `UpdatePairs_growth_reports_self_pair` with the insertion sort. -/
theorem UpdatePairs_growth_reports_self_pair_witness :
    SortsByLess sortDesc ∧
    ∃ dtb u, TouchProxy (NewBroadPhase crowdedTable) 0 = some dtb ∧
      UpdatePairs sortDesc tableTree dtb = some u ∧
      u.state._pairCapacity = 32 ∧ u.state._pairCount = 17 ∧
      (⟨0, 0⟩ : Pair) ∈ u.pairs ∧
      (tableTree.GetUserData u.state._tree 0, tableTree.GetUserData u.state._tree 0) ∈ u.calls ∧
      ∃ p ∈ u.pairs, p.ProxyIdA = p.ProxyIdB :=
  ⟨sortDesc_sortsByLess, UpdatePairs_growth_reports_self_pair sortDesc sortDesc_sortsByLess⟩

/-- C3 (tombstone safety; the code falls short of it). Proxy 5 is added and then
touched, so it is buffered twice. `RemoveProxy(5)` leaves `_moveCount` at 2 but
tombstones the first entry only: the second slot still holds 5, and the following
`UpdatePairs` (with whatever sorting routine) passes the removed id 5 to the tree's
`GetFatAABB` and `Query`. -/
theorem RemoveProxy_leaves_second_entry (srt : List Pair → List Pair) :
    ∃ d1 d2 d3, AddProxy tableTree (NewBroadPhase []) 5 = some (d1, 5) ∧
      TouchProxy d1 5 = some d2 ∧
      d2._moveCount = 2 ∧ d2._moveBuffer.take 2 = [5, 5] ∧
      RemoveProxy tableTree d2 5 = some d3 ∧
      d3._moveCount = 2 ∧ d3._moveBuffer.take 2 = [-1, 5] ∧
      (UpdatePairs srt tableTree d3).map (fun u => u.queried) = some [5] := by
  refine ⟨_, _, _, rfl, rfl, rfl, rfl, rfl, rfl, rfl, ?_⟩
  exact UpdatePairs_queried srt tableTree _ _ _ rfl (Nat.zero_le _)

/-- C4 (pairs are transient; the code falls short of it). A first `UpdatePairs` finds
and reports the pairs `(5, 6)` and `(3, 4)`, which stay in the pair buffer. Then proxy 1
moves next to proxy 2, and the second `UpdatePairs` queries proxy 1 only and records
the single pair `(1, 2)` at index 0. The whole buffer is sorted, stale entries
included, and the first `_pairCount = 1` entries are reported: the callback gets the
stale pair `(3, 4)`, which no query of this call found, and not `(1, 2)`. -/
theorem UpdatePairs_reports_stale_pair (srt : List Pair → List Pair)
    (hsrt : SortsByLess srt) :
    ∃ d1 d2 u1 d3 u2, TouchProxy (NewBroadPhase twoOverlapsTable) 3 = some d1 ∧
      TouchProxy d1 5 = some d2 ∧
      UpdatePairs srt tableTree d2 = some u1 ∧
      u1.pairs = [⟨5, 6⟩, ⟨3, 4⟩] ∧
      MoveProxy tableTree u1.state 1 [1, 2] () = some d3 ∧
      UpdatePairs srt tableTree d3 = some u2 ∧
      u2.queried = [1] ∧
      tableTree.Query d3._tree (tableTree.GetFatAABB d3._tree 1) = [1, 2] ∧
      u2.pairs = [⟨3, 4⟩] := by
  obtain rfl := sortsByLess_unique hsrt
  refine ⟨_, _, _, _, _, rfl, rfl, rfl, ?_, rfl, rfl, ?_⟩
  · decide
  · decide

/-- The scenario of `UpdatePairs_reports_stale_pair` with the insertion sort. -/
theorem UpdatePairs_reports_stale_pair_witness :
    SortsByLess sortDesc ∧
    ∃ d1 d2 u1 d3 u2, TouchProxy (NewBroadPhase twoOverlapsTable) 3 = some d1 ∧
      TouchProxy d1 5 = some d2 ∧
      UpdatePairs sortDesc tableTree d2 = some u1 ∧
      u1.pairs = [⟨5, 6⟩, ⟨3, 4⟩] ∧
      MoveProxy tableTree u1.state 1 [1, 2] () = some d3 ∧
      UpdatePairs sortDesc tableTree d3 = some u2 ∧
      u2.queried = [1] ∧
      tableTree.Query d3._tree (tableTree.GetFatAABB d3._tree 1) = [1, 2] ∧
      u2.pairs = [⟨3, 4⟩] :=
  ⟨sortDesc_sortsByLess, UpdatePairs_reports_stale_pair sortDesc sortDesc_sortsByLess⟩

/-- C5 (move-buffer idempotence). On a well-formed move buffer `MoveProxy` succeeds,
and it appends `proxyId` to the move buffer (count up by one, the id in the new slot,
earlier entries kept) when the tree's `MoveProxy` answers `true`, while it leaves
`_moveCount`, the buffered entries and the capacity unchanged when the tree answers
`false`. Hence a run of any number of `MoveProxy` calls for a proxy that the tree never
restructures leaves the move buffer as it was. -/
theorem MoveProxy_buffers_iff_tree_moved (tree : DynamicTree T A V P) (dtb : BroadPhase T)
    (proxyId : Int) (aabb : A) (displacement : V) (h : MoveBufferOK dtb) :
    (∃ d, MoveProxy tree dtb proxyId aabb displacement = some d ∧
      ((tree.MoveProxy dtb._tree proxyId aabb displacement).2 = true →
        d._moveCount = dtb._moveCount + 1 ∧
        d._moveBuffer[dtb._moveCount]? = some proxyId ∧
        ∀ i, i < dtb._moveCount → d._moveBuffer[i]? = dtb._moveBuffer[i]?) ∧
      ((tree.MoveProxy dtb._tree proxyId aabb displacement).2 = false →
        d._moveCount = dtb._moveCount ∧ d._moveBuffer = dtb._moveBuffer ∧
        d._moveCapacity = dtb._moveCapacity)) ∧
    ∀ calls : List (A × V), (∀ t a v, (tree.MoveProxy t proxyId a v).2 = false) →
      ∃ dn, MoveProxyMany tree proxyId calls dtb = some dn ∧
        dn._moveCount = dtb._moveCount ∧ dn._moveBuffer = dtb._moveBuffer ∧
        dn._moveCapacity = dtb._moveCapacity := by
  refine ⟨?_, fun calls hstill => MoveProxyMany_still tree proxyId hstill calls dtb⟩
  cases hm : (tree.MoveProxy dtb._tree proxyId aabb displacement).2 with
  | false =>
    refine ⟨{ dtb with _tree := (tree.MoveProxy dtb._tree proxyId aabb displacement).1 }, ?_,
      fun hc => Bool.noConfusion hc, fun _ => ⟨rfl, rfl, rfl⟩⟩
    simp [MoveProxy, hm]
  | true =>
    obtain ⟨d, hd, hc, hnew, hold, -⟩ := bufferMove_spec
      { dtb with _tree := (tree.MoveProxy dtb._tree proxyId aabb displacement).1 } proxyId h
    refine ⟨d, ?_, fun _ => ⟨hc, hnew, hold⟩, fun hc => Bool.noConfusion hc⟩
    simp only [MoveProxy, hm, if_true]
    exact hd

/-- On a fresh broad phase: a move that the tree restructures is buffered, and three
moves that the tree does not restructure leave the buffer empty. -/
theorem MoveProxy_buffers_iff_tree_moved_witness :
    MoveBufferOK (NewBroadPhase ([] : List (Int × List Int))) ∧
    (∃ d, MoveProxy tableTree (NewBroadPhase []) 3 [4] () = some d ∧
      d._moveCount = 1 ∧ d._moveBuffer[0]? = some 3) ∧
    (∃ dn, MoveProxyMany stillTree 3 [([4], ()), ([5], ()), ([4], ())] (NewBroadPhase []) =
        some dn ∧
      dn._moveCount = 0 ∧ dn._moveBuffer = List.replicate 16 0) := by
  have h0 : MoveBufferOK (NewBroadPhase ([] : List (Int × List Int))) :=
    ⟨rfl, by decide, by decide⟩
  refine ⟨h0, ?_, ?_⟩
  · obtain ⟨⟨d, hd, ht, -⟩, -⟩ :=
      MoveProxy_buffers_iff_tree_moved tableTree (NewBroadPhase []) 3 [4] () h0
    obtain ⟨h1, h2, -⟩ := ht rfl
    exact ⟨d, hd, h1, h2⟩
  · obtain ⟨-, hmany⟩ :=
      MoveProxy_buffers_iff_tree_moved stillTree (NewBroadPhase []) 3 [4] () h0
    obtain ⟨dn, h1, h2, h3, -⟩ := hmany [([4], ()), ([5], ()), ([4], ())] (fun _ _ _ => rfl)
    exact ⟨dn, h1, h2, h3⟩

/-- What `AddProxy` itself does. On a well-formed move buffer `AddProxy` succeeds and
returns the id given by the tree's `AddProxy`; the proxy count grows by exactly one;
the id becomes the last move-buffer entry (`_moveCount` up by one, the id in the new
slot, earlier entries unchanged, whether or not the buffer had to grow); the pair
buffer, its count and its capacity are untouched. `AddProxy` takes no callback, so it
reports no pair; the id is among the ids the next `UpdatePairs` queries. -/
theorem AddProxy_buffers_new_proxy (tree : DynamicTree T A V P) (dtb : BroadPhase T)
    (proxy : P) (h : MoveBufferOK dtb) :
    ∃ d, AddProxy tree dtb proxy =
        some (d, (tree.AddProxy dtb._tree (tree.proxyAABB proxy) proxy).2) ∧
      d._tree = (tree.AddProxy dtb._tree (tree.proxyAABB proxy) proxy).1 ∧
      ProxyCount d = ProxyCount dtb + 1 ∧
      d._moveCount = dtb._moveCount + 1 ∧
      d._moveBuffer[dtb._moveCount]? =
        some (tree.AddProxy dtb._tree (tree.proxyAABB proxy) proxy).2 ∧
      (∀ i, i < dtb._moveCount → d._moveBuffer[i]? = dtb._moveBuffer[i]?) ∧
      d._pairBuffer = dtb._pairBuffer ∧ d._pairCount = dtb._pairCount ∧
      d._pairCapacity = dtb._pairCapacity ∧
      ∀ srt u, (tree.AddProxy dtb._tree (tree.proxyAABB proxy) proxy).2 ≠ -1 →
        UpdatePairs srt tree d = some u →
        (tree.AddProxy dtb._tree (tree.proxyAABB proxy) proxy).2 ∈ u.queried := by
  obtain ⟨d, hd, hc, hnew, hold, hpb, hpcap, hpc, hprox, -, htree, -, -⟩ := bufferMove_spec
    { dtb with
      _tree := (tree.AddProxy dtb._tree (tree.proxyAABB proxy) proxy).1
      _proxyCount := dtb._proxyCount + 1 }
    (tree.AddProxy dtb._tree (tree.proxyAABB proxy) proxy).2 h
  refine ⟨d, ?_, htree, hprox, hc, hnew, hold, hpb, hpc, hpcap, ?_⟩
  · simp only [AddProxy, hd, Option.map_some']
  · intro srt u hne hu
    obtain ⟨hq, -⟩ := UpdatePairs_frame srt tree hu
    rw [hq, List.mem_filter]
    refine ⟨?_, by simpa using hne⟩
    have hc' : d._moveCount = dtb._moveCount + 1 := hc
    have hnew' : d._moveBuffer[dtb._moveCount]? =
        some (tree.AddProxy dtb._tree (tree.proxyAABB proxy) proxy).2 := hnew
    rw [hc']
    have hget : (d._moveBuffer.take (dtb._moveCount + 1))[dtb._moveCount]? =
        some (tree.AddProxy dtb._tree (tree.proxyAABB proxy) proxy).2 := by
      rw [List.getElem?_take_of_lt (Nat.lt_succ_self _)]; exact hnew'
    exact List.getElem?_mem hget

/-- On a fresh broad phase the proxy 7 is added: id 7 is returned and buffered, and the
next `UpdatePairs` queries it. -/
theorem AddProxy_buffers_new_proxy_witness :
    MoveBufferOK (NewBroadPhase ([] : List (Int × List Int))) ∧
    ∃ d, AddProxy tableTree (NewBroadPhase []) 7 = some (d, 7) ∧
      ProxyCount d = 1 ∧ d._moveCount = 1 ∧ d._moveBuffer[0]? = some 7 ∧
      d._pairBuffer = List.replicate 16 ⟨0, 0⟩ ∧ d._pairCount = 0 ∧
      ∃ u, UpdatePairs sortDesc tableTree d = some u ∧ (7 : Int) ∈ u.queried := by
  have h0 : MoveBufferOK (NewBroadPhase ([] : List (Int × List Int))) :=
    ⟨rfl, by decide, by decide⟩
  obtain ⟨d, hd, -, h1, h2, h3, -, h4, h5, -, h6⟩ :=
    AddProxy_buffers_new_proxy tableTree (NewBroadPhase []) 7 h0
  have hd7 : d = (⟨7 :: List.replicate 15 0, 16, 1, List.replicate 16 ⟨0, 0⟩, 16, 0, 1, 0,
      [(7, [])]⟩ : BroadPhase (List (Int × List Int))) := by
    have hcomp : AddProxy tableTree (NewBroadPhase ([] : List (Int × List Int))) 7 =
        some (⟨7 :: List.replicate 15 0, 16, 1, List.replicate 16 ⟨0, 0⟩, 16, 0, 1, 0,
          [(7, [])]⟩, 7) := rfl
    rw [hcomp] at hd
    exact (Prod.mk.inj (Option.some.inj hd)).1.symm
  refine ⟨h0, d, hd, h1, h2, h3, h4, h5, ?_⟩
  have hu : ∃ u, UpdatePairs sortDesc tableTree d = some u := by
    rw [hd7]
    exact ⟨_, rfl⟩
  obtain ⟨u, hu⟩ := hu
  exact ⟨u, hu, h6 sortDesc u (by decide) hu⟩

/-- C9 (`AddProxy`; the code falls short of its last clause). A first `UpdatePairs`
reports the pairs `(5, 6)` and `(3, 4)`, which stay in the pair buffer. Then proxy 1,
whose AABB meets proxy 2, is added: `AddProxy` returns the tree's id 1, raises the
proxy count by one, buffers the id as the only move-buffer entry and leaves the pair
buffer untouched, as the claim says. But the next `UpdatePairs`, which queries proxy 1
and finds proxy 2, does not report the new proxy's pair `(1, 2)`: it records it at
index 0, sorts the whole buffer with the stale entries, and reports the first
`_pairCount = 1` entry, the stale `(3, 4)`. -/
theorem AddProxy_pair_goes_unreported (srt : List Pair → List Pair)
    (hsrt : SortsByLess srt) :
    ∃ d1 d2 u1 d3 u2, TouchProxy (NewBroadPhase twoOverlapsTable) 3 = some d1 ∧
      TouchProxy d1 5 = some d2 ∧
      UpdatePairs srt pairedTree d2 = some u1 ∧
      u1.pairs = [⟨5, 6⟩, ⟨3, 4⟩] ∧
      AddProxy pairedTree u1.state 1 = some (d3, 1) ∧
      (pairedTree.AddProxy u1.state._tree (pairedTree.proxyAABB 1) 1).2 = 1 ∧
      ProxyCount d3 = ProxyCount u1.state + 1 ∧
      d3._moveCount = 1 ∧ d3._moveBuffer[0]? = some 1 ∧
      d3._pairBuffer = u1.state._pairBuffer ∧
      UpdatePairs srt pairedTree d3 = some u2 ∧
      u2.queried = [1] ∧
      pairedTree.Query d3._tree (pairedTree.GetFatAABB d3._tree 1) = [1, 2] ∧
      u2.pairs = [⟨3, 4⟩] ∧ u2.pairs.count ⟨1, 2⟩ = 0 := by
  obtain rfl := sortsByLess_unique hsrt
  refine ⟨_, _, _, _, _, rfl, rfl, rfl, ?_, rfl, rfl, ?_, ?_, ?_, ?_, rfl, ?_⟩ <;> decide

/-- The scenario of `AddProxy_pair_goes_unreported` with the insertion sort. -/
theorem AddProxy_pair_goes_unreported_witness :
    SortsByLess sortDesc ∧
    ∃ d1 d2 u1 d3 u2, TouchProxy (NewBroadPhase twoOverlapsTable) 3 = some d1 ∧
      TouchProxy d1 5 = some d2 ∧
      UpdatePairs sortDesc pairedTree d2 = some u1 ∧
      u1.pairs = [⟨5, 6⟩, ⟨3, 4⟩] ∧
      AddProxy pairedTree u1.state 1 = some (d3, 1) ∧
      (pairedTree.AddProxy u1.state._tree (pairedTree.proxyAABB 1) 1).2 = 1 ∧
      ProxyCount d3 = ProxyCount u1.state + 1 ∧
      d3._moveCount = 1 ∧ d3._moveBuffer[0]? = some 1 ∧
      d3._pairBuffer = u1.state._pairBuffer ∧
      UpdatePairs sortDesc pairedTree d3 = some u2 ∧
      u2.queried = [1] ∧
      pairedTree.Query d3._tree (pairedTree.GetFatAABB d3._tree 1) = [1, 2] ∧
      u2.pairs = [⟨3, 4⟩] ∧ u2.pairs.count ⟨1, 2⟩ = 0 :=
  ⟨sortDesc_sortsByLess, AddProxy_pair_goes_unreported sortDesc sortDesc_sortsByLess⟩

end BroadPhase

/-! ## The claims on the step -/

namespace Space

variable {E : Type}

/-- C6 (degenerate timestep). For `dt ≤ 0`, `Step` returns the space as it was (bodies,
arbiters, broad phase and `prev_dt` included) and makes no call at all, in particular
neither `findNewContacts` nor `collide`. Hence a step after it, and so the later of
two positive steps around it, runs exactly as it would have without it. -/
theorem Step_nonpositive_dt_is_noop (m : GoMath) (c : Collab E) (st : Settings)
    (space : Space E) (dt : ℚ) (h : dt ≤ 0) :
    Step m c st space dt = (space, []) ∧
    (∀ dt2, Step m c st (Step m c st space dt).1 dt2 = Step m c st space dt2) ∧
    ∀ dt1 dt2, Step m c st (Step m c st (Step m c st space dt1).1 dt).1 dt2 =
      Step m c st (Step m c st space dt1).1 dt2 := by
  have key : ∀ s : Space E, Step m c st s dt = (s, []) := fun s => by
    unfold Step
    rw [if_pos h]
  refine ⟨key space, fun dt2 => by rw [key], fun dt1 dt2 => by rw [key]⟩

/-- A step of the sample space with `dt = -1`. -/
theorem Step_nonpositive_dt_is_noop_witness :
    (-1 : ℚ) ≤ 0 ∧
    Step zeroMath listCollab sampleSettings sampleSpace (-1) = (sampleSpace, []) ∧
    (∀ dt2, Step zeroMath listCollab sampleSettings
        (Step zeroMath listCollab sampleSettings sampleSpace (-1)).1 dt2 =
      Step zeroMath listCollab sampleSettings sampleSpace dt2) ∧
    ∀ dt1 dt2, Step zeroMath listCollab sampleSettings
        (Step zeroMath listCollab sampleSettings
          (Step zeroMath listCollab sampleSettings sampleSpace dt1).1 (-1)).1 dt2 =
      Step zeroMath listCollab sampleSettings
        (Step zeroMath listCollab sampleSettings sampleSpace dt1).1 dt2 :=
  ⟨by norm_num,
    Step_nonpositive_dt_is_noop zeroMath listCollab sampleSettings sampleSpace (-1)
      (by norm_num)⟩

/-- C7 (warm-start ratio), refuted as stated at `dt = +Inf`. Infinity is a `float64`
greater than zero: a step with it passes the guard `dt <= 0.0` and leaves
`prev_dt = +Inf`, and in the next step with the same `dt` the coefficient is
`+Inf / +Inf`, which is NaN and not 1. -/
theorem Step_warm_start_at_infinity :
    F64.gtZero F64.posInf = true ∧
    stepScalars (F64.fin 0) F64.posInf = some (F64.fin 0, F64.posInf) ∧
    stepScalars F64.posInf F64.posInf = some (F64.nan, F64.posInf) ∧
    F64.nan ≠ F64.fin 1 ∧
    ¬ ∀ dt : F64, dt.gtZero = true → stepScalars dt dt = some (F64.fin 1, dt) := by
  refine ⟨rfl, ?_, rfl, fun h => F64.noConfusion h, fun hall => ?_⟩
  · simp [stepScalars, F64.leZero, F64.neZero]
  · have hinf := hall F64.posInf rfl
    have hnan : stepScalars F64.posInf F64.posInf = some (F64.nan, F64.posInf) := rfl
    rw [hnan] at hinf
    exact F64.noConfusion (Prod.mk.inj (Option.some.inj hinf)).1

/-- C7 (warm-start ratio), as amended: for every finite `dt > 0`, over exact
arithmetic. `Step` ends with `prev_dt = dt`. The warm-start loop takes the world from
`worldBeforeWarmStart` to `worldBeforeSolve` by applying the collaborator's
`applyCachedImpulse` to the non-sensor arbiters of the list, in order, each time with
the coefficient `dt / prev_dt` when the space's `prev_dt` is not 0 and with 0 when it
is 0: so with 0 on the first step of a new space and with 1 in the second of two
consecutive steps with the same `dt`; the step's final world is the one the solver and
the last pass make of that world. The calls logged agree: every logged
`applyCachedImpulse` carries that coefficient. On finite values the scalars agree with
`stepScalars`, the reading over `float64`. -/
theorem Step_warm_start_coefficient (m : GoMath) (c : Collab E) (st : Settings)
    (space : Space E) (dt : ℚ) (h : 0 < dt) :
    (Step m c st space dt).1.prev_dt = dt ∧
    (∀ arb coef, Call.applyCachedImpulse arb coef ∈ (Step m c st space dt).2 →
      coef = if space.prev_dt ≠ 0 then dt / space.prev_dt else 0) ∧
    (∀ w0 arb coef, Call.applyCachedImpulse arb coef ∈ (Step m c st (NewSpace w0) dt).2 →
      coef = 0) ∧
    (∀ arb coef,
      Call.applyCachedImpulse arb coef ∈ (Step m c st (Step m c st space dt).1 dt).2 →
      coef = 1) ∧
    warmStartArbiters (Step m c st space dt).2 =
      solid (c.arbiterList (worldBeforeWarmStart m c st space dt)) ∧
    worldBeforeSolve m c st space dt =
      applyToSolid
        (fun arb => c.applyCachedImpulse arb
          (if space.prev_dt ≠ 0 then dt / space.prev_dt else 0))
        c.arbiterList (worldBeforeWarmStart m c st space dt) ∧
    (∀ w0, worldBeforeSolve m c st (NewSpace w0) dt =
      applyToSolid (fun arb => c.applyCachedImpulse arb 0) c.arbiterList
        (worldBeforeWarmStart m c st (NewSpace w0) dt)) ∧
    worldBeforeSolve m c st (Step m c st space dt).1 dt =
      applyToSolid (fun arb => c.applyCachedImpulse arb 1) c.arbiterList
        (worldBeforeWarmStart m c st (Step m c st space dt).1 dt) ∧
    (Step m c st space dt).1.mem =
      (velocitiesPass m c dt space.Bodies
        (solvePass c st.Iterations.toNat (worldBeforeSolve m c st space dt)).1).1 ∧
    stepScalars (F64.fin space.prev_dt) (F64.fin dt) =
      some (F64.fin (if space.prev_dt ≠ 0 then dt / space.prev_dt else 0), F64.fin dt) := by
  have hprev : (Step m c st space dt).1.prev_dt = dt := by
    rw [(Step_log m c st space dt h).1]
  refine ⟨hprev, ?_, ?_, ?_, warmStartArbiters_Step m c st space dt h,
    worldBeforeSolve_eq m c st space dt, ?_, ?_, ?_, stepScalars_fin _ _ h⟩
  · intro arb coef hmem
    exact mem_Step_applyCachedImpulse m c st space dt h arb coef hmem
  · intro w0 arb coef hmem
    rw [mem_Step_applyCachedImpulse m c st _ dt h arb coef hmem]
    simp [dtCoef, NewSpace]
  · intro arb coef hmem
    rw [mem_Step_applyCachedImpulse m c st _ dt h arb coef hmem, hprev]
    simp [dtCoef, h.ne']
  · intro w0
    rw [worldBeforeSolve_eq]
    simp [dtCoef, NewSpace]
  · rw [worldBeforeSolve_eq, hprev]
    simp [dtCoef, h.ne']
  · rw [(Step_log m c st space dt h).1]

/-- Steps with `dt = 0.016` of a space whose collaborators record what they receive:
with `prev_dt = 0.016` the solid arbiter receives `applyCachedImpulse(1)`, with
`prev_dt = 0` it receives `applyCachedImpulse(0)`; the sensor arbiters receive
nothing. -/
theorem Step_warm_start_coefficient_witness :
    (0 : ℚ) < 2 / 125 ∧
    (Step zeroMath recordingCollab sampleSettings (recordingSpace (2 / 125))
      (2 / 125)).1.prev_dt = 2 / 125 ∧
    (Step zeroMath recordingCollab sampleSettings (recordingSpace (2 / 125))
      (2 / 125)).1.mem.ext.received =
      [Call.preStep solidArbiter (1 / (2 / 125)) sampleSettings.CollisionSlop
          (biasCoef zeroMath sampleSettings (2 / 125)),
        Call.applyCachedImpulse solidArbiter 1,
        Call.applyImpulse solidArbiter, Call.applyImpulse solidArbiter] ∧
    (Step zeroMath recordingCollab sampleSettings (recordingSpace 0)
      (2 / 125)).1.mem.ext.received =
      [Call.preStep solidArbiter (1 / (2 / 125)) sampleSettings.CollisionSlop
          (biasCoef zeroMath sampleSettings (2 / 125)),
        Call.applyCachedImpulse solidArbiter 0,
        Call.applyImpulse solidArbiter, Call.applyImpulse solidArbiter] := by
  have h0 : (0 : ℚ) < 2 / 125 := by norm_num
  obtain ⟨h1, -, -, -, -, h6, -, -, h9, -⟩ :=
    Step_warm_start_coefficient zeroMath recordingCollab sampleSettings
      (recordingSpace (2 / 125)) (2 / 125) h0
  obtain ⟨-, -, -, -, -, k6, -, -, k9, -⟩ :=
    Step_warm_start_coefficient zeroMath recordingCollab sampleSettings
      (recordingSpace 0) (2 / 125) h0
  have hcoef : (if (recordingSpace (2 / 125)).prev_dt ≠ 0
      then 2 / 125 / (recordingSpace (2 / 125)).prev_dt else 0) = (1 : ℚ) := by
    norm_num [recordingSpace]
  have kcoef : (if (recordingSpace 0).prev_dt ≠ 0
      then 2 / 125 / (recordingSpace 0).prev_dt else 0) = (0 : ℚ) := by
    norm_num [recordingSpace]
  rw [hcoef] at h6
  rw [kcoef] at k6
  refine ⟨h0, h1, ?_, ?_⟩
  · rw [h9, h6]; rfl
  · rw [k9, k6]; rfl

/-- C10 (force integration). `forcesPass` is the force-integration pass that `Step`
runs for `dt > 0` over `space.Bodies` with `space.Gravity`; the statement holds for
every `dt`. For a non-static body `b` of a duplicate-free body list, after the pass
`Velocity` is `Velocity + dt * (invMass * Force + Gravity)`, the gravity term left out
when `IgnoreGravity` is set, and `AngularVelocity` is
`AngularVelocity + dt * invI * Torque`; `Force` and `Torque` are zero when
`AutoClearForces` is set and unchanged when it is not. -/
theorem forcesPass_integrates_forces (c : Collab E) (st : Settings) (gravity : Vect) (dt : ℚ)
    (bodies : List BodyRef) (w : World E) (b : BodyRef)
    (hnd : bodies.Nodup) (hb : b ∈ bodies) (hdyn : (w.bodies b).IsStatic = false) :
    ((forcesPass c st gravity dt bodies w).1.bodies b).Velocity.X =
      (w.bodies b).Velocity.X + dt * ((w.bodies b).invMass * (w.bodies b).Force.X +
        (if (w.bodies b).IgnoreGravity then 0 else gravity.X)) ∧
    ((forcesPass c st gravity dt bodies w).1.bodies b).Velocity.Y =
      (w.bodies b).Velocity.Y + dt * ((w.bodies b).invMass * (w.bodies b).Force.Y +
        (if (w.bodies b).IgnoreGravity then 0 else gravity.Y)) ∧
    ((forcesPass c st gravity dt bodies w).1.bodies b).AngularVelocity =
      (w.bodies b).AngularVelocity + dt * (w.bodies b).invI * (w.bodies b).Torque ∧
    (st.AutoClearForces = true →
      ((forcesPass c st gravity dt bodies w).1.bodies b).Force = ⟨0, 0⟩ ∧
      ((forcesPass c st gravity dt bodies w).1.bodies b).Torque = 0) ∧
    (st.AutoClearForces = false →
      ((forcesPass c st gravity dt bodies w).1.bodies b).Force = (w.bodies b).Force ∧
      ((forcesPass c st gravity dt bodies w).1.bodies b).Torque = (w.bodies b).Torque) := by
  rw [forcesPass_mem c st gravity dt bodies w b hnd hb]
  dsimp only [forcesBody]
  rw [if_neg (by simp [hdyn])]
  cases hg : (w.bodies b).IgnoreGravity <;> cases ha : st.AutoClearForces <;>
    refine ⟨?_, ?_, ?_, ?_, ?_⟩ <;> simp [Vect.Add, Vect.Mult] <;> ring

/-- The force pass over the sample world with gravity `(0, -10)` and `dt = 1/2`: the
body with unit mass, force `(1, 2)` and torque 3 ends with velocity `(1/2, -4)` and
angular velocity `3/2`, its force and torque cleared. -/
theorem forcesPass_integrates_forces_witness :
    ([0] : List BodyRef).Nodup ∧ (0 : BodyRef) ∈ ([0] : List BodyRef) ∧
    (sampleWorld.bodies 0).IsStatic = false ∧
    ((forcesPass listCollab sampleSettings ⟨0, -10⟩ (1 / 2) [0] sampleWorld).1.bodies
      0).Velocity.X = 1 / 2 ∧
    ((forcesPass listCollab sampleSettings ⟨0, -10⟩ (1 / 2) [0] sampleWorld).1.bodies
      0).Velocity.Y = -4 ∧
    ((forcesPass listCollab sampleSettings ⟨0, -10⟩ (1 / 2) [0] sampleWorld).1.bodies
      0).AngularVelocity = 3 / 2 ∧
    ((forcesPass listCollab sampleSettings ⟨0, -10⟩ (1 / 2) [0] sampleWorld).1.bodies
      0).Force = ⟨0, 0⟩ ∧
    ((forcesPass listCollab sampleSettings ⟨0, -10⟩ (1 / 2) [0] sampleWorld).1.bodies
      0).Torque = 0 := by
  have hnd : ([0] : List BodyRef).Nodup := by simp
  have hb : (0 : BodyRef) ∈ ([0] : List BodyRef) := by simp
  obtain ⟨h1, h2, h3, h4, -⟩ :=
    forcesPass_integrates_forces listCollab sampleSettings ⟨0, -10⟩ (1 / 2) [0] sampleWorld 0
      hnd hb rfl
  obtain ⟨h4a, h4b⟩ := h4 rfl
  refine ⟨hnd, hb, rfl, ?_, ?_, ?_, h4a, h4b⟩
  · rw [h1]; norm_num [sampleWorld, sampleBody]
  · rw [h2]; norm_num [sampleWorld, sampleBody]
  · rw [h3]; norm_num [sampleWorld, sampleBody]

end Space

/-! ## Totality of the broad phase on well-formed buffers -/

namespace BroadPhase

variable {T A V P : Type}

theorem float64_of_small (x : Int) (h : x.natAbs ≤ 9007199254740992) : float64 x = x := by
  unfold float64
  simp only [h, if_true]

theorem float64_of_id (x : Int) (h0 : 0 ≤ x) (h1 : x < 2 ^ 53) : float64 x = x := by
  apply float64_of_small
  omega

theorem queryCallback_spec (dtb : BroadPhase T) (proxyId : Int) (h : PairBufferOK dtb) :
    ∃ d, queryCallback dtb proxyId = some (d, true) ∧ PairBufferOK d ∧
      (proxyId = dtb._queryProxyId → d = dtb) ∧
      (proxyId ≠ dtb._queryProxyId →
        d._pairBuffer[dtb._pairCount]? =
          some ⟨minId proxyId dtb._queryProxyId, maxId proxyId dtb._queryProxyId⟩ ∧
        d._pairCount = dtb._pairCount + 1 ∧
        d._pairCapacity =
          (if dtb._pairCount = dtb._pairCapacity then dtb._pairCapacity * 2
            else dtb._pairCapacity)) := by
  obtain ⟨hl, hc, hp⟩ := h
  unfold queryCallback
  by_cases h1 : proxyId = dtb._queryProxyId
  · rw [if_pos h1]
    exact ⟨dtb, rfl, ⟨hl, hc, hp⟩, fun _ => rfl, fun hne => absurd h1 hne⟩
  · rw [if_neg h1]
    by_cases hfull : dtb._pairCount = dtb._pairCapacity
    · have hlt : dtb._pairCount <
          (List.replicate dtb._pairCapacity (⟨0, 0⟩ : Pair) ++ dtb._pairBuffer).length := by
        simp; omega
      simp only [if_pos hfull]
      rw [if_pos hlt]
      refine ⟨_, rfl, ⟨?_, ?_, ?_⟩, fun he => absurd he h1, fun _ => ⟨?_, rfl, ?_⟩⟩
      · simp; omega
      · show dtb._pairCount + 1 ≤ dtb._pairCapacity * 2
        omega
      · show 0 < dtb._pairCapacity * 2
        omega
      · exact List.getElem?_set_self hlt
      · simp [hfull]
    · have hlt : dtb._pairCount < dtb._pairBuffer.length := by omega
      simp only [if_neg hfull]
      rw [if_pos hlt]
      refine ⟨_, rfl, ⟨?_, ?_, ?_⟩, fun he => absurd he h1, fun _ => ⟨?_, rfl, ?_⟩⟩
      · simpa using hl
      · show dtb._pairCount + 1 ≤ dtb._pairCapacity
        omega
      · exact hp
      · exact List.getElem?_set_self hlt
      · simp [hfull]

theorem runQuery_total (ids : List Int) (dtb : BroadPhase T) (h : PairBufferOK dtb) :
    ∃ d, runQuery ids dtb = some d ∧ PairBufferOK d := by
  induction ids generalizing dtb with
  | nil => exact ⟨dtb, rfl, h⟩
  | cons id rest ih =>
    obtain ⟨d1, hq, hok, -⟩ := queryCallback_spec dtb id h
    obtain ⟨d2, hr, hok2⟩ := ih d1 hok
    refine ⟨d2, ?_, hok2⟩
    simp only [runQuery, hq]
    exact hr

theorem queryLoop_total (tree : DynamicTree T A V P) (js : List Nat) (dtb : BroadPhase T)
    (h : PairBufferOK dtb) (hjs : ∀ j ∈ js, j < dtb._moveBuffer.length) :
    ∃ d q, queryLoop tree js dtb = some (d, q) ∧ PairBufferOK d := by
  induction js generalizing dtb with
  | nil => exact ⟨dtb, [], rfl, h⟩
  | cons j js ih =>
    have hj : j < dtb._moveBuffer.length := hjs j (List.mem_cons_self _ _)
    have hget : dtb._moveBuffer[j]? = some dtb._moveBuffer[j] := List.getElem?_eq_getElem hj
    unfold queryLoop
    simp only [hget]
    by_cases hx : dtb._moveBuffer[j] = -1
    · simp only [hx, if_true]
      exact ih { dtb with _queryProxyId := -1 } h
        (fun k hk => hjs k (List.mem_cons_of_mem _ hk))
    · simp only [hx, if_false]
      obtain ⟨d2, hr, hok2⟩ := runQuery_total
        (tree.Query dtb._tree (tree.GetFatAABB dtb._tree dtb._moveBuffer[j]))
        { dtb with _queryProxyId := dtb._moveBuffer[j] } h
      obtain ⟨hs, -⟩ := runQuery_frame _ hr
      simp only [hr]
      obtain ⟨d3, q3, hl, hok3⟩ := ih d2 hok2
        (fun k hk => by rw [hs.1]; exact hjs k (List.mem_cons_of_mem _ hk))
      exact ⟨d3, dtb._moveBuffer[j] :: q3, by simp only [hl, Option.map_some'], hok3⟩

/-- `UpdatePairs` returns when the buffers are well formed and the sorting routine
keeps the length of the slice. -/
theorem UpdatePairs_total (srt : List Pair → List Pair) (tree : DynamicTree T A V P)
    (dtb : BroadPhase T) (hm : dtb._moveCount ≤ dtb._moveBuffer.length)
    (hp : PairBufferOK dtb) (hsrt : ∀ l, (srt l).length = l.length) :
    ∃ u, UpdatePairs srt tree dtb = some u := by
  have hp0 : PairBufferOK { dtb with _pairCount := 0 } := ⟨hp.1, Nat.zero_le _, hp.2.2⟩
  obtain ⟨d, q, hl, hok⟩ := queryLoop_total tree (List.range dtb._moveCount)
    { dtb with _pairCount := 0 } hp0
    (fun j hj => Nat.lt_of_lt_of_le (List.mem_range.1 hj) hm)
  unfold UpdatePairs
  simp only [hl]
  have hlen : d._pairCount ≤ (srt d._pairBuffer).length := by
    rw [hsrt, hok.1]; exact hok.2.1
  rw [if_pos hlen]
  exact ⟨_, rfl⟩

theorem unBufferLoop_total (proxyId : Int) (n : Nat) (buf : List Int) (h : n ≤ buf.length) :
    ∃ r, unBufferLoop proxyId n buf = some r ∧ r.length = buf.length := by
  induction n generalizing buf with
  | zero => exact ⟨buf, rfl, rfl⟩
  | succ n ih =>
    cases buf with
    | nil => simp at h
    | cons x rest =>
      unfold unBufferLoop
      by_cases hx : x = proxyId
      · rw [if_pos hx]; exact ⟨_, rfl, rfl⟩
      · rw [if_neg hx]
        obtain ⟨r, hr, hlen⟩ := ih rest (by simpa using h)
        exact ⟨x :: r, by simp [hr], by simp [hlen]⟩
theorem sortsByLess_length {srt : List Pair → List Pair} (h : SortsByLess srt)
    (l : List Pair) : (srt l).length = l.length :=
  (h l).1.length_eq

theorem MoveInv.ok {dtb : BroadPhase T} (h : MoveInv dtb) : MoveBufferOK dtb :=
  ⟨h.1, h.2.2, Nat.lt_of_lt_of_le (by decide) h.2.1⟩

theorem bufferMove_inv (dtb : BroadPhase T) (proxyId : Int) (h : MoveInv dtb) :
    ∃ d, bufferMove dtb proxyId = some d ∧ MoveInv d ∧
      dtb._moveCount < d._moveBuffer.length ∧
      d._moveCapacity = (if dtb._moveCount = dtb._moveCapacity then dtb._moveCapacity * 2
        else dtb._moveCapacity) ∧
      d._moveBuffer[dtb._moveCount]? = some proxyId ∧
      (∀ i, i < dtb._moveCount → d._moveBuffer[i]? = dtb._moveBuffer[i]?) ∧
      d._tree = dtb._tree := by
  obtain ⟨d, hd, hc, hnew, hold, -, -, -, -, -, htree, hcap, hok⟩ :=
    bufferMove_spec dtb proxyId h.ok
  refine ⟨d, hd, ⟨hok.1, ?_, hok.2.1⟩, ?_, hcap, hnew, hold, htree⟩
  · rw [hcap]
    have := h.2.1
    split_ifs <;> omega
  · rw [hok.1]
    have := hok.2.1
    omega

theorem UpdatePairs_of_moveCount_zero (srt : List Pair → List Pair)
    (tree : DynamicTree T A V P) (dtb : BroadPhase T) (h : dtb._moveCount = 0) :
    ∃ u, UpdatePairs srt tree dtb = some u ∧ u.queried = [] ∧ u.pairs = [] ∧ u.calls = [] := by
  unfold UpdatePairs
  simp only [h, List.range_zero, queryLoop]
  rw [if_pos (Nat.zero_le _)]
  exact ⟨_, rfl, rfl, rfl, rfl⟩

end BroadPhase

/-! ## The comparator on slices -/

theorem Less_eq (p : List Pair) (i j : Nat) (hi : i < p.length) (hj : j < p.length) :
    Less p i j = some (p[i].less p[j]) := by
  unfold Less
  rw [List.getElem?_eq_getElem hi, List.getElem?_eq_getElem hj]

theorem Pair.less_eq_false_iff (a b : Pair) : a.less b = false ↔ Pair.lexLt a b := by
  rw [← Bool.not_eq_true, Pair.less_iff, not_not, Pair.lexLt]

/-! ## The velocity pass, body by body -/

namespace Space

variable {E : Type}

theorem forcesBody_static (st : Settings) (gravity : Vect) (dt : ℚ) (body : Body)
    (h : body.IsStatic = true) : forcesBody st gravity dt body = body := by
  unfold forcesBody
  rw [if_pos h]

theorem velocityBody_static (m : GoMath) (dt : ℚ) (body : Body) (h : body.IsStatic = true) :
    velocityBody m dt body = body := by
  unfold velocityBody
  rw [if_pos h]

theorem velocityBody_isStatic (m : GoMath) (dt : ℚ) (body : Body) :
    (velocityBody m dt body).IsStatic = body.IsStatic := by
  unfold velocityBody
  split_ifs <;> rfl

theorem integrateVelocity_other (m : GoMath) (c : Collab E) (dt : ℚ) (w : World E)
    (b b' : BodyRef) (hne : b' ≠ b) :
    (integrateVelocity m c dt w b).1.bodies b' = w.bodies b' := by
  dsimp only [integrateVelocity]
  split_ifs <;> simp [Function.update_noteq hne]

theorem integrateVelocity_self (m : GoMath) (c : Collab E) (dt : ℚ) (w : World E)
    (b : BodyRef) :
    (integrateVelocity m c dt w b).1.bodies b = velocityBody m dt (w.bodies b) := by
  dsimp only [integrateVelocity, velocityBody]
  split_ifs <;> simp [Function.update_same]

theorem velocitiesPass_not_mem (m : GoMath) (c : Collab E) (dt : ℚ) (bodies : List BodyRef)
    (w : World E) (b : BodyRef) (hb : b ∉ bodies) :
    (velocitiesPass m c dt bodies w).1.bodies b = w.bodies b := by
  induction bodies generalizing w with
  | nil => rfl
  | cons x rest ih =>
    simp only [List.mem_cons, not_or] at hb
    simp only [velocitiesPass, Run.andThen]
    rw [ih _ hb.2, integrateVelocity_other m c dt w x b hb.1]

theorem velocitiesPass_mem (m : GoMath) (c : Collab E) (dt : ℚ) (bodies : List BodyRef)
    (w : World E) (b : BodyRef) (hnd : bodies.Nodup) (hb : b ∈ bodies) :
    (velocitiesPass m c dt bodies w).1.bodies b = velocityBody m dt (w.bodies b) := by
  induction bodies generalizing w with
  | nil => simp at hb
  | cons x rest ih =>
    obtain ⟨hx, hrest⟩ := List.nodup_cons.1 hnd
    simp only [velocitiesPass, Run.andThen]
    rcases List.mem_cons.1 hb with rfl | hr
    · rw [velocitiesPass_not_mem m c dt rest _ b hx, integrateVelocity_self]
    · have hne : b ≠ x := fun h => hx (h ▸ hr)
      rw [ih _ hrest hr, integrateVelocity_other m c dt w x b hne]

theorem velocitiesPass_isStatic (m : GoMath) (c : Collab E) (dt : ℚ) (bodies : List BodyRef)
    (w : World E) (b : BodyRef) :
    ((velocitiesPass m c dt bodies w).1.bodies b).IsStatic = (w.bodies b).IsStatic := by
  induction bodies generalizing w with
  | nil => rfl
  | cons x rest ih =>
    simp only [velocitiesPass, Run.andThen]
    rw [ih]
    by_cases hbx : b = x
    · subst hbx; rw [integrateVelocity_self, velocityBody_isStatic]
    · rw [integrateVelocity_other m c dt w x b hbx]

theorem velocityBody_bias (m : GoMath) (dt : ℚ) (body : Body) (h : body.IsStatic = false) :
    (velocityBody m dt body).v_bias = ⟨0, 0⟩ ∧ (velocityBody m dt body).w_bias = 0 := by
  unfold velocityBody
  rw [if_neg (by simp [h])]
  exact ⟨rfl, rfl⟩

theorem velocitiesPass_bias (m : GoMath) (c : Collab E) (dt : ℚ) (bodies : List BodyRef)
    (w : World E) (b : BodyRef) (hb : b ∈ bodies) (hdyn : (w.bodies b).IsStatic = false) :
    ((velocitiesPass m c dt bodies w).1.bodies b).v_bias = ⟨0, 0⟩ ∧
      ((velocitiesPass m c dt bodies w).1.bodies b).w_bias = 0 := by
  induction bodies generalizing w with
  | nil => simp at hb
  | cons x rest ih =>
    simp only [velocitiesPass, Run.andThen]
    by_cases hr : b ∈ rest
    · apply ih _ hr
      by_cases hbx : b = x
      · subst hbx; rw [integrateVelocity_self, velocityBody_isStatic]; exact hdyn
      · rw [integrateVelocity_other m c dt w x b hbx]; exact hdyn
    · have hbx : b = x := by
        rcases List.mem_cons.1 hb with h | h
        · exact h
        · exact absurd h hr
      subst hbx
      rw [velocitiesPass_not_mem m c dt rest _ b hr, integrateVelocity_self]
      exact velocityBody_bias m dt _ hdyn

theorem velocitiesPass_setAngle (m : GoMath) (c : Collab E) (dt : ℚ) (bodies : List BodyRef)
    (w : World E) (b : BodyRef) (hnd : bodies.Nodup) (hb : b ∈ bodies)
    (hdyn : (w.bodies b).IsStatic = false) :
    Call.SetAngle b ((w.bodies b).Transform.Rotation.Angle m +
        dt * ((w.bodies b).AngularVelocity + (w.bodies b).w_bias)) ∈
      (velocitiesPass m c dt bodies w).2 := by
  induction bodies generalizing w with
  | nil => simp at hb
  | cons x rest ih =>
    obtain ⟨hx, hrest⟩ := List.nodup_cons.1 hnd
    simp only [velocitiesPass, Run.andThen, List.mem_append]
    rcases List.mem_cons.1 hb with rfl | hr
    · left
      dsimp only [integrateVelocity]
      rw [if_neg (by simp [hdyn])]
      exact List.mem_cons_self _ _
    · right
      have hne : b ≠ x := fun h => hx (h ▸ hr)
      have hsame := integrateVelocity_other m c dt w x b hne
      have := ih (integrateVelocity m c dt w x).1 hrest hr (by rw [hsame]; exact hdyn)
      rw [hsame] at this
      exact this

end Space

/-! ## Further claims on the step -/

namespace Space

variable {E : Type}

theorem Step_mem (m : GoMath) (c : Collab E) (st : Settings) (space : Space E) (dt : ℚ)
    (h : 0 < dt) :
    (Step m c st space dt).1.mem =
      (velocitiesPass m c dt space.Bodies (worldAfterSolve m c st space dt)).1 := by
  rw [(Step_log m c st space dt h).1]
  rfl

theorem Step_velocity_log (m : GoMath) (c : Collab E) (st : Settings) (space : Space E)
    (dt : ℚ) (h : 0 < dt) (call : Call)
    (hc : call ∈ (velocitiesPass m c dt space.Bodies (worldAfterSolve m c st space dt)).2) :
    call ∈ (Step m c st space dt).2 := by
  rw [(Step_log m c st space dt h).2]
  refine List.mem_cons_of_mem _ (List.mem_cons_of_mem _ ?_)
  refine List.mem_append_right _ (List.mem_append_right _ (List.mem_append_right _
    (List.mem_append_right _ (List.mem_append_right _ ?_))))
  exact hc

/-- C11 (position integration). For `dt > 0` and a non-static body `b` of a
duplicate-free body list, the last pass of `Step` sets `Position` to
`Position + dt * (Velocity + v_bias)` and calls `SetAngle` with
`Angle() + dt * (AngularVelocity + w_bias)`, all read in the world as the solver
iterations leave it, and resets `v_bias` and `w_bias`. Consequently after the step
every body of the list that is not static has `v_bias = (0, 0)` and `w_bias = 0`
(this part needs no duplicate-freeness). -/
theorem Step_integrates_positions (m : GoMath) (c : Collab E) (st : Settings)
    (space : Space E) (dt : ℚ) (b : BodyRef) (h : 0 < dt) (hnd : space.Bodies.Nodup)
    (hb : b ∈ space.Bodies)
    (hdyn : ((worldAfterSolve m c st space dt).bodies b).IsStatic = false) :
    ((Step m c st space dt).1.mem.bodies b).Transform.Position.X =
      ((worldAfterSolve m c st space dt).bodies b).Transform.Position.X +
        dt * (((worldAfterSolve m c st space dt).bodies b).Velocity.X +
          ((worldAfterSolve m c st space dt).bodies b).v_bias.X) ∧
    ((Step m c st space dt).1.mem.bodies b).Transform.Position.Y =
      ((worldAfterSolve m c st space dt).bodies b).Transform.Position.Y +
        dt * (((worldAfterSolve m c st space dt).bodies b).Velocity.Y +
          ((worldAfterSolve m c st space dt).bodies b).v_bias.Y) ∧
    ((Step m c st space dt).1.mem.bodies b).Transform.Rotation =
      Rotation.SetAngle m ((worldAfterSolve m c st space dt).bodies b).Transform.Rotation
        (Rotation.Angle m ((worldAfterSolve m c st space dt).bodies b).Transform.Rotation +
          dt * (((worldAfterSolve m c st space dt).bodies b).AngularVelocity +
            ((worldAfterSolve m c st space dt).bodies b).w_bias)) ∧
    Call.SetAngle b
        (Rotation.Angle m ((worldAfterSolve m c st space dt).bodies b).Transform.Rotation +
          dt * (((worldAfterSolve m c st space dt).bodies b).AngularVelocity +
            ((worldAfterSolve m c st space dt).bodies b).w_bias)) ∈
      (Step m c st space dt).2 ∧
    ((Step m c st space dt).1.mem.bodies b).v_bias = ⟨0, 0⟩ ∧
    ((Step m c st space dt).1.mem.bodies b).w_bias = 0 ∧
    ∀ b2 ∈ space.Bodies, ((Step m c st space dt).1.mem.bodies b2).IsStatic = false →
      ((Step m c st space dt).1.mem.bodies b2).v_bias = ⟨0, 0⟩ ∧
      ((Step m c st space dt).1.mem.bodies b2).w_bias = 0 := by
  rw [Step_mem m c st space dt h]
  refine ⟨?_, ?_, ?_, ?_, ?_, ?_, ?_⟩
  · rw [velocitiesPass_mem m c dt _ _ b hnd hb]
    dsimp only [velocityBody]
    rw [if_neg (by simp [hdyn])]
    simp only [Vect.Add, Vect.Mult]
    ring
  · rw [velocitiesPass_mem m c dt _ _ b hnd hb]
    dsimp only [velocityBody]
    rw [if_neg (by simp [hdyn])]
    simp only [Vect.Add, Vect.Mult]
    ring
  · rw [velocitiesPass_mem m c dt _ _ b hnd hb]
    dsimp only [velocityBody]
    rw [if_neg (by simp [hdyn])]
  · exact Step_velocity_log m c st space dt h _
      (velocitiesPass_setAngle m c dt _ _ b hnd hb hdyn)
  · exact (velocitiesPass_bias m c dt _ _ b hb hdyn).1
  · exact (velocitiesPass_bias m c dt _ _ b hb hdyn).2
  · intro b2 hb2 hs
    rw [velocitiesPass_isStatic] at hs
    exact velocitiesPass_bias m c dt _ _ b2 hb2 hs

/-- A step of `movingSpace` with `dt = 1/2`: the body 0 is dynamic when the last pass
starts, and ends with its bias velocities reset. -/
theorem Step_integrates_positions_witness :
    (0 : ℚ) < 1 / 2 ∧ movingSpace.Bodies.Nodup ∧ (0 : BodyRef) ∈ movingSpace.Bodies ∧
    ((worldAfterSolve zeroMath listCollab sampleSettings movingSpace (1 / 2)).bodies
      0).IsStatic = false ∧
    ((Step zeroMath listCollab sampleSettings movingSpace (1 / 2)).1.mem.bodies
      0).Transform.Position.X =
      ((worldAfterSolve zeroMath listCollab sampleSettings movingSpace (1 / 2)).bodies
        0).Transform.Position.X +
        1 / 2 * (((worldAfterSolve zeroMath listCollab sampleSettings movingSpace
            (1 / 2)).bodies 0).Velocity.X +
          ((worldAfterSolve zeroMath listCollab sampleSettings movingSpace
            (1 / 2)).bodies 0).v_bias.X) ∧
    ((Step zeroMath listCollab sampleSettings movingSpace (1 / 2)).1.mem.bodies 0).v_bias =
      ⟨0, 0⟩ ∧
    ((Step zeroMath listCollab sampleSettings movingSpace (1 / 2)).1.mem.bodies 0).w_bias =
      0 := by
  have h0 : (0 : ℚ) < 1 / 2 := by norm_num
  have hnd : movingSpace.Bodies.Nodup := by simp [movingSpace]
  have hb : (0 : BodyRef) ∈ movingSpace.Bodies := by simp [movingSpace]
  have hdyn : ((worldAfterSolve zeroMath listCollab sampleSettings movingSpace
      (1 / 2)).bodies 0).IsStatic = false := rfl
  obtain ⟨h1, -, -, -, h5, h6, -⟩ :=
    Step_integrates_positions zeroMath listCollab sampleSettings movingSpace (1 / 2) 0
      h0 hnd hb hdyn
  exact ⟨h0, hnd, hb, hdyn, h1, h5, h6⟩

theorem forcesPass_static (c : Collab E) (st : Settings) (gravity : Vect) (dt : ℚ)
    (bodies : List BodyRef) (w : World E) (b : BodyRef) (hs : (w.bodies b).IsStatic = true) :
    (forcesPass c st gravity dt bodies w).1.bodies b = w.bodies b := by
  induction bodies generalizing w with
  | nil => rfl
  | cons x rest ih =>
    have hstep : (integrateForces c st gravity dt w x).bodies b = w.bodies b := by
      by_cases hbx : b = x
      · subst hbx; rw [integrateForces_self, forcesBody_static _ _ _ _ hs]
      · exact integrateForces_other c st gravity dt w x b hbx
    simp only [forcesPass]
    rw [ih _ (by rw [hstep]; exact hs), hstep]

theorem velocitiesPass_static (m : GoMath) (c : Collab E) (dt : ℚ)
    (bodies : List BodyRef) (w : World E) (b : BodyRef) (hs : (w.bodies b).IsStatic = true) :
    (velocitiesPass m c dt bodies w).1.bodies b = w.bodies b := by
  induction bodies generalizing w with
  | nil => rfl
  | cons x rest ih =>
    have hstep : (integrateVelocity m c dt w x).1.bodies b = w.bodies b := by
      by_cases hbx : b = x
      · subst hbx; rw [integrateVelocity_self, velocityBody_static _ _ _ hs]
      · exact integrateVelocity_other m c dt w x b hbx
    simp only [velocitiesPass, Run.andThen]
    rw [ih _ (by rw [hstep]; exact hs), hstep]

/-- C12 (static bodies are never moved). For every `dt`, every body list and every
world, the force-integration pass and the position-integration pass leave a body for
which `IsStatic()` holds exactly as it was: its `Velocity`, `AngularVelocity`,
`Transform`, `Force` and `Torque` (and every other field) are unchanged. -/
theorem passes_leave_static_body (m : GoMath) (c : Collab E) (st : Settings) (gravity : Vect)
    (dt : ℚ) (bodies : List BodyRef) (w : World E) (b : BodyRef)
    (hs : (w.bodies b).IsStatic = true) :
    (forcesPass c st gravity dt bodies w).1.bodies b = w.bodies b ∧
    (velocitiesPass m c dt bodies w).1.bodies b = w.bodies b ∧
    ((forcesPass c st gravity dt bodies w).1.bodies b).Velocity = (w.bodies b).Velocity ∧
    ((forcesPass c st gravity dt bodies w).1.bodies b).AngularVelocity =
      (w.bodies b).AngularVelocity ∧
    ((forcesPass c st gravity dt bodies w).1.bodies b).Transform = (w.bodies b).Transform ∧
    ((forcesPass c st gravity dt bodies w).1.bodies b).Force = (w.bodies b).Force ∧
    ((forcesPass c st gravity dt bodies w).1.bodies b).Torque = (w.bodies b).Torque ∧
    ((velocitiesPass m c dt bodies w).1.bodies b).Velocity = (w.bodies b).Velocity ∧
    ((velocitiesPass m c dt bodies w).1.bodies b).AngularVelocity =
      (w.bodies b).AngularVelocity ∧
    ((velocitiesPass m c dt bodies w).1.bodies b).Transform = (w.bodies b).Transform ∧
    ((velocitiesPass m c dt bodies w).1.bodies b).Force = (w.bodies b).Force ∧
    ((velocitiesPass m c dt bodies w).1.bodies b).Torque = (w.bodies b).Torque := by
  have hf := forcesPass_static c st gravity dt bodies w b hs
  have hv := velocitiesPass_static m c dt bodies w b hs
  refine ⟨hf, hv, ?_, ?_, ?_, ?_, ?_, ?_, ?_, ?_, ?_, ?_⟩ <;> first | rw [hf] | rw [hv]

/-- The two passes over `staticWorld` leave the static body 0 as it was. -/
theorem passes_leave_static_body_witness :
    (staticWorld.bodies 0).IsStatic = true ∧
    (forcesPass listCollab sampleSettings ⟨0, -10⟩ 1 [0, 0] staticWorld).1.bodies 0 =
      staticBody ∧
    (velocitiesPass zeroMath listCollab 1 [0, 0] staticWorld).1.bodies 0 = staticBody := by
  obtain ⟨h1, h2, -⟩ :=
    passes_leave_static_body zeroMath listCollab sampleSettings ⟨0, -10⟩ 1 [0, 0]
      staticWorld 0 rfl
  exact ⟨rfl, h1, h2⟩

theorem removeFirst_not_mem (body : BodyRef) (l : List BodyRef) (h : body ∉ l) :
    removeFirst body l = none := by
  induction l with
  | nil => rfl
  | cons x rest ih =>
    simp only [List.mem_cons, not_or] at h
    simp only [removeFirst, if_neg (Ne.symm h.1), ih h.2, Option.map_none']

theorem removeFirst_append (body : BodyRef) (l : List BodyRef) (h : body ∉ l) :
    removeFirst body (l ++ [body]) = some l := by
  induction l with
  | nil => simp [removeFirst]
  | cons x rest ih =>
    simp only [List.mem_cons, not_or] at h
    show removeFirst body (x :: (rest ++ [body])) = some (x :: rest)
    simp only [removeFirst, if_neg (Ne.symm h.1), ih h.2, Option.map_some']

/-- C17 (the body list of a space). For a body whose `Space` is nil and which is not
in `Bodies`, `AddBody` appends it as the last element of `Bodies` (the earlier elements
unchanged, in order) and sets its `Space` to the space; a following `RemoveBody`
restores `Bodies` to the original sequence and the body's `Space` to nil. `AddBody` of
a body whose `Space` is not nil, and `RemoveBody` of a body that is not in `Bodies`,
change nothing. -/
theorem AddBody_then_RemoveBody (c : Collab E) (p : ProxyOps E) (self : SpaceRef)
    (space : Space E) (body : BodyRef)
    (hnil : (space.mem.bodies body).Space = none) (hnew : body ∉ space.Bodies) :
    (AddBody c p self space body).Bodies = space.Bodies ++ [body] ∧
    ((AddBody c p self space body).mem.bodies body).Space = some self ∧
    (RemoveBody p (AddBody c p self space body) body).Bodies = space.Bodies ∧
    ((RemoveBody p (AddBody c p self space body) body).mem.bodies body).Space = none ∧
    (∀ (s : Space E) (b : BodyRef), (s.mem.bodies b).Space ≠ none →
      AddBody c p self s b = s) ∧
    (∀ (s : Space E) (b : BodyRef), b ∉ s.Bodies → RemoveBody p s b = s) := by
  have hadd : (AddBody c p self space body).Bodies = space.Bodies ++ [body] := by
    unfold AddBody
    rw [if_neg (by simp [hnil])]
  refine ⟨hadd, ?_, ?_, ?_, ?_, ?_⟩
  · unfold AddBody
    rw [if_neg (by simp [hnil])]
    simp [Function.update_same]
  · unfold RemoveBody
    rw [hadd, removeFirst_append body _ hnew]
  · unfold RemoveBody
    rw [hadd, removeFirst_append body _ hnew]
    simp [Function.update_same]
  · intro s b hb
    unfold AddBody
    rw [if_pos hb]
  · intro s b hb
    unfold RemoveBody
    rw [removeFirst_not_mem b _ hb]

/-- The body 3 is added to a new space and removed again. -/
theorem AddBody_then_RemoveBody_witness :
    (((NewSpace sampleWorld).mem.bodies 3).Space = none) ∧
    (3 : BodyRef) ∉ (NewSpace sampleWorld).Bodies ∧
    (AddBody listCollab idleProxyOps 1 (NewSpace sampleWorld) 3).Bodies = [3] ∧
    ((AddBody listCollab idleProxyOps 1 (NewSpace sampleWorld) 3).mem.bodies 3).Space =
      some 1 ∧
    (RemoveBody idleProxyOps (AddBody listCollab idleProxyOps 1 (NewSpace sampleWorld) 3)
      3).Bodies = [] ∧
    ((RemoveBody idleProxyOps (AddBody listCollab idleProxyOps 1 (NewSpace sampleWorld) 3)
      3).mem.bodies 3).Space = none := by
  have hnew : (3 : BodyRef) ∉ (NewSpace sampleWorld).Bodies := by simp [NewSpace]
  obtain ⟨h1, h2, h3, h4, -⟩ :=
    AddBody_then_RemoveBody listCollab idleProxyOps 1 (NewSpace sampleWorld) 3 rfl hnew
  exact ⟨rfl, hnew, h1, h2, h3, h4⟩

end Space

/-! ## Further claims on the broad phase -/

namespace BroadPhase

variable {T A V P : Type}

/-- C13 (recording a pair appends; the code falls short of it). On a fresh broad
phase with `_queryProxyId = 0` the callback records the sixteen pairs `(0, 1)` to
`(0, 16)`: the buffer is full, `len(_pairBuffer) == _pairCapacity == _pairCount == 16`.
The next call `queryCallback(17)` doubles the capacity, but the sixteen new zero
entries are put in front of the recorded pairs: the first 17 entries of the buffer are
then sixteen zero pairs followed by `(0, 17)`, not the sixteen recorded pairs followed
by the new one, and `(0, 1)` is nowhere in the buffer any more. -/
theorem queryCallback_growth_overwrites_recorded_pair :
    ∃ d0 d1,
      runQuery [1, 2, 3, 4, 5, 6, 7, 8, 9, 10, 11, 12, 13, 14, 15, 16]
        (NewBroadPhase ([] : List (Int × List Int))) = some d0 ∧
      d0._pairBuffer.length = d0._pairCapacity ∧ d0._pairCapacity = 16 ∧
      d0._pairCount = 16 ∧ d0._queryProxyId = 0 ∧
      d0._pairBuffer = [⟨0, 1⟩, ⟨0, 2⟩, ⟨0, 3⟩, ⟨0, 4⟩, ⟨0, 5⟩, ⟨0, 6⟩, ⟨0, 7⟩, ⟨0, 8⟩,
        ⟨0, 9⟩, ⟨0, 10⟩, ⟨0, 11⟩, ⟨0, 12⟩, ⟨0, 13⟩, ⟨0, 14⟩, ⟨0, 15⟩, ⟨0, 16⟩] ∧
      queryCallback d0 17 = some (d1, true) ∧
      d1._pairCapacity = 32 ∧ d1._pairCount = 17 ∧
      d1._pairBuffer.take 17 = List.replicate 16 ⟨0, 0⟩ ++ [⟨0, 17⟩] ∧
      d1._pairBuffer.take 16 ≠ d0._pairBuffer.take 16 ∧
      (⟨0, 1⟩ : Pair) ∉ d1._pairBuffer := by
  refine ⟨_, _, rfl, ?_, ?_, ?_, ?_, ?_, rfl, ?_⟩ <;> decide

/-- C14 (canonical pairs). For ids `p` and `q = _queryProxyId`, non-negative and below
`2^53`, on a well-formed pair buffer: if `p ≠ q`, `queryCallback(p)` returns `true`,
writes the pair `(min(p, q), max(p, q))` at index `_pairCount`, whose first id is
smaller than its second, and increments `_pairCount` by one; if `p = q` it returns
`true` and changes nothing. -/
theorem queryCallback_records_canonical_pair (dtb : BroadPhase T) (p : Int)
    (h : PairBufferOK dtb) (hp0 : 0 ≤ p) (hp1 : p < 2 ^ 53)
    (hq0 : 0 ≤ dtb._queryProxyId) (hq1 : dtb._queryProxyId < 2 ^ 53) :
    (p ≠ dtb._queryProxyId →
      ∃ d, queryCallback dtb p = some (d, true) ∧
        d._pairBuffer[dtb._pairCount]? =
          some ⟨min p dtb._queryProxyId, max p dtb._queryProxyId⟩ ∧
        min p dtb._queryProxyId < max p dtb._queryProxyId ∧
        d._pairCount = dtb._pairCount + 1) ∧
    (p = dtb._queryProxyId → queryCallback dtb p = some (dtb, true)) := by
  obtain ⟨d, hd, -, heq, hne⟩ := queryCallback_spec dtb p h
  constructor
  · intro hpq
    obtain ⟨h1, h2, -⟩ := hne hpq
    refine ⟨d, hd, ?_, ?_, h2⟩
    · rw [h1]
      simp only [minId, maxId, float64_of_id p hp0 hp1, float64_of_id _ hq0 hq1]
    · omega
  · intro hpq
    rw [hd, heq hpq]

/-- On a fresh broad phase (`_queryProxyId = 0`) the callback for proxy 3 records
`(0, 3)`. -/
theorem queryCallback_records_canonical_pair_witness :
    PairBufferOK (NewBroadPhase ([] : List (Int × List Int))) ∧
    (0 : Int) ≤ 3 ∧ (3 : Int) < 2 ^ 53 ∧
    (0 : Int) ≤ (NewBroadPhase ([] : List (Int × List Int)))._queryProxyId ∧
    (NewBroadPhase ([] : List (Int × List Int)))._queryProxyId < 2 ^ 53 ∧
    ∃ d, queryCallback (NewBroadPhase ([] : List (Int × List Int))) 3 = some (d, true) ∧
      d._pairBuffer[0]? = some ⟨0, 3⟩ ∧ d._pairCount = 1 := by
  have hok : PairBufferOK (NewBroadPhase ([] : List (Int × List Int))) :=
    ⟨rfl, Nat.zero_le 16, Nat.succ_pos 15⟩
  have h1 : (0 : Int) ≤ 3 := by decide
  have h2 : (3 : Int) < 2 ^ 53 := by decide
  have h3 : (0 : Int) ≤ (NewBroadPhase ([] : List (Int × List Int)))._queryProxyId :=
    Int.le_refl 0
  have h4 : (NewBroadPhase ([] : List (Int × List Int)))._queryProxyId < 2 ^ 53 := by decide
  obtain ⟨hne, -⟩ :=
    queryCallback_records_canonical_pair (NewBroadPhase ([] : List (Int × List Int))) 3
      hok h1 h2 h3 h4
  obtain ⟨d, hd, hpair, -, hcount⟩ := hne (by decide)
  exact ⟨hok, h1, h2, h3, h4, d, hd, hpair, hcount⟩

/-- C15 (`UpdatePairs` consumes the move buffer). On well-formed buffers, with a
sorting routine meeting the contract, `UpdatePairs` returns, and afterwards
`_moveCount` is 0 and `_moveCapacity` is unchanged; a second `UpdatePairs` issued
right afterwards returns as well, performs no tree query and invokes the callback
zero times. -/
theorem UpdatePairs_consumes_move_buffer (srt : List Pair → List Pair)
    (tree : DynamicTree T A V P) (dtb : BroadPhase T)
    (hm : MoveBufferOK dtb) (hp : PairBufferOK dtb) (hsrt : SortsByLess srt) :
    ∃ u, UpdatePairs srt tree dtb = some u ∧
      u.state._moveCount = 0 ∧ u.state._moveCapacity = dtb._moveCapacity ∧
      ∃ u2, UpdatePairs srt tree u.state = some u2 ∧
        u2.queried = [] ∧ u2.pairs = [] ∧ u2.calls = [] := by
  obtain ⟨u, hu⟩ := UpdatePairs_total srt tree dtb (by rw [hm.1]; exact hm.2.1) hp
    (sortsByLess_length hsrt)
  obtain ⟨-, h0, hcap, -⟩ := UpdatePairs_frame srt tree hu
  exact ⟨u, hu, h0, hcap, UpdatePairs_of_moveCount_zero srt tree u.state h0⟩

/-- Two updates in a row of `touchedPhase`, which has one buffered move. -/
theorem UpdatePairs_consumes_move_buffer_witness :
    MoveBufferOK touchedPhase ∧ PairBufferOK touchedPhase ∧ SortsByLess sortDesc ∧
    TouchProxy (NewBroadPhase twoOverlapsTable) 3 = some touchedPhase ∧
    ∃ u, UpdatePairs sortDesc tableTree touchedPhase = some u ∧
      u.state._moveCount = 0 ∧ u.state._moveCapacity = 16 ∧
      ∃ u2, UpdatePairs sortDesc tableTree u.state = some u2 ∧
        u2.queried = [] ∧ u2.pairs = [] ∧ u2.calls = [] := by
  have hm : MoveBufferOK touchedPhase := ⟨rfl, Nat.succ_le_succ (Nat.zero_le 15), Nat.succ_pos 15⟩
  have hp : PairBufferOK touchedPhase := ⟨rfl, Nat.zero_le 16, Nat.succ_pos 15⟩
  exact ⟨hm, hp, sortDesc_sortsByLess, rfl,
    UpdatePairs_consumes_move_buffer sortDesc tableTree touchedPhase hm hp
      sortDesc_sortsByLess⟩

/-- C16 (move-buffer bounds invariant). The predicate `MoveInv` holds after
`NewBroadPhase`; from a state satisfying it `AddProxy`, `TouchProxy`, `MoveProxy` and
`RemoveProxy` return a state satisfying it, and so does `UpdatePairs` whenever it
returns (which it does on a well-formed pair buffer). Under the invariant
`bufferMove` writes inside the buffer, the new capacity is twice the old one when
`_moveCount == _moveCapacity` and the old one otherwise, the new id is in the slot
`_moveCount`, and every earlier entry is still at its index. -/
theorem MoveInv_is_invariant (tree : DynamicTree T A V P) (dtb : BroadPhase T)
    (h : MoveInv dtb) :
    (∀ t0 : T, MoveInv (NewBroadPhase t0)) ∧
    (∀ proxy, ∃ d id, AddProxy tree dtb proxy = some (d, id) ∧ MoveInv d) ∧
    (∀ proxyId, ∃ d, TouchProxy dtb proxyId = some d ∧ MoveInv d) ∧
    (∀ proxyId aabb displacement,
      ∃ d, MoveProxy tree dtb proxyId aabb displacement = some d ∧ MoveInv d) ∧
    (∀ proxyId, ∃ d, RemoveProxy tree dtb proxyId = some d ∧ MoveInv d) ∧
    (∀ srt u, UpdatePairs srt tree dtb = some u → MoveInv u.state) ∧
    (∀ srt, SortsByLess srt → PairBufferOK dtb →
      ∃ u, UpdatePairs srt tree dtb = some u ∧ MoveInv u.state) ∧
    (∀ proxyId, ∃ d, bufferMove dtb proxyId = some d ∧
      dtb._moveCount < d._moveBuffer.length ∧
      d._moveCapacity = (if dtb._moveCount = dtb._moveCapacity then dtb._moveCapacity * 2
        else dtb._moveCapacity) ∧
      d._moveBuffer[dtb._moveCount]? = some proxyId ∧
      ∀ i, i < dtb._moveCount → d._moveBuffer[i]? = dtb._moveBuffer[i]?) := by
  have hupd : ∀ srt u, UpdatePairs srt tree dtb = some u → MoveInv u.state := by
    intro srt u hu
    obtain ⟨-, h0, hcap, hbuf, -⟩ := UpdatePairs_frame srt tree hu
    refine ⟨?_, ?_, ?_⟩
    · rw [hbuf, hcap]; exact h.1
    · rw [hcap]; exact h.2.1
    · rw [h0]; exact Nat.zero_le _
  refine ⟨fun t0 => ⟨rfl, Nat.le_refl 16, Nat.zero_le 16⟩, ?_, ?_, ?_, ?_, hupd, ?_, ?_⟩
  · intro proxy
    obtain ⟨d, hd, hinv, -⟩ := bufferMove_inv
      { dtb with
        _tree := (tree.AddProxy dtb._tree (tree.proxyAABB proxy) proxy).1
        _proxyCount := dtb._proxyCount + 1 }
      (tree.AddProxy dtb._tree (tree.proxyAABB proxy) proxy).2 h
    exact ⟨d, (tree.AddProxy dtb._tree (tree.proxyAABB proxy) proxy).2,
      by simp only [AddProxy, hd, Option.map_some'], hinv⟩
  · intro proxyId
    obtain ⟨d, hd, hinv, -⟩ := bufferMove_inv dtb proxyId h
    exact ⟨d, hd, hinv⟩
  · intro proxyId aabb displacement
    cases hm : (tree.MoveProxy dtb._tree proxyId aabb displacement).2 with
    | false =>
      exact ⟨{ dtb with _tree := (tree.MoveProxy dtb._tree proxyId aabb displacement).1 },
        by simp [MoveProxy, hm], h⟩
    | true =>
      obtain ⟨d, hd, hinv, -⟩ := bufferMove_inv
        { dtb with _tree := (tree.MoveProxy dtb._tree proxyId aabb displacement).1 } proxyId h
      exact ⟨d, by simp only [MoveProxy, hm, if_true]; exact hd, hinv⟩
  · intro proxyId
    obtain ⟨r, hr, hlen⟩ := unBufferLoop_total proxyId dtb._moveCount dtb._moveBuffer
      (by rw [h.1]; exact h.2.2)
    refine ⟨{ dtb with
      _moveBuffer := r
      _proxyCount := dtb._proxyCount - 1
      _tree := tree.RemoveProxy dtb._tree proxyId }, ?_, ?_⟩
    · simp only [RemoveProxy, unBufferMove, hr, Option.map_some']
    · exact ⟨hlen.trans h.1, h.2.1, h.2.2⟩
  · intro srt hsrt hp
    obtain ⟨u, hu⟩ := UpdatePairs_total srt tree dtb (by rw [h.1]; exact h.2.2) hp
      (sortsByLess_length hsrt)
    exact ⟨u, hu, hupd srt u hu⟩
  · intro proxyId
    obtain ⟨d, hd, -, hlt, hcap, hnew, hold, -⟩ := bufferMove_inv dtb proxyId h
    exact ⟨d, hd, hlt, hcap, hnew, hold⟩

/-- The invariant on a fresh broad phase, and after a `TouchProxy` and a
`RemoveProxy` on it. -/
theorem MoveInv_is_invariant_witness :
    MoveInv (NewBroadPhase ([] : List (Int × List Int))) ∧
    (∃ d, TouchProxy (NewBroadPhase ([] : List (Int × List Int))) 4 = some d ∧ MoveInv d) ∧
    (∃ d, RemoveProxy tableTree (NewBroadPhase ([] : List (Int × List Int))) 4 = some d ∧
      MoveInv d) ∧
    ∃ d, bufferMove (NewBroadPhase ([] : List (Int × List Int))) 4 = some d ∧
      d._moveCapacity = 16 ∧ d._moveBuffer[0]? = some 4 := by
  have h0 : MoveInv (NewBroadPhase ([] : List (Int × List Int))) :=
    ⟨rfl, Nat.le_refl 16, Nat.zero_le 16⟩
  obtain ⟨-, -, htouch, -, hremove, -, -, hbuf⟩ :=
    MoveInv_is_invariant tableTree (NewBroadPhase ([] : List (Int × List Int))) h0
  obtain ⟨d, hd, -, hcap, hnew, -⟩ := hbuf 4
  exact ⟨h0, htouch 4, hremove 4, d, hd, hcap.trans rfl, hnew⟩

end BroadPhase

/-! ## The claims on the comparator, the scene and the rotation -/

/-- C20 (comparator characterisation). For valid indices `i`, `j` of a pair slice `p`,
`Less(i, j)` returns `false` exactly when `p[i]` is strictly smaller than `p[j]` in the
lexicographic order on `(ProxyIdA, ProxyIdB)`, and `true` otherwise; so it returns
`true` when `p[i] == p[j]`, in particular for `i == j`; and the relation is total and
transitive. -/
theorem Less_characterisation (p : List Pair) (i j : Nat) (hi : i < p.length)
    (hj : j < p.length) :
    (Less p i j = some false ↔ Pair.lexLt p[i] p[j]) ∧
    (Less p i j = some true ↔ ¬ Pair.lexLt p[i] p[j]) ∧
    (p[i] = p[j] → Less p i j = some true) ∧
    Less p i i = some true ∧
    (Less p i j = some true ∨ Less p j i = some true) ∧
    ∀ k, k < p.length → Less p i j = some true → Less p j k = some true →
      Less p i k = some true := by
  have hless : ∀ a b : Pair, a.less b = true ↔ ¬ Pair.lexLt a b := fun a b => Pair.less_iff a b
  refine ⟨?_, ?_, ?_, ?_, ?_, ?_⟩
  · rw [Less_eq p i j hi hj, Option.some.injEq, Pair.less_eq_false_iff]
  · rw [Less_eq p i j hi hj, Option.some.injEq, hless]
  · intro he
    rw [Less_eq p i j hi hj, Option.some.injEq, hless, he]
    unfold Pair.lexLt; omega
  · rw [Less_eq p i i hi hi, Option.some.injEq, hless]
    unfold Pair.lexLt; omega
  · rw [Less_eq p i j hi hj, Less_eq p j i hj hi, Option.some.injEq, Option.some.injEq,
      hless, hless]
    unfold Pair.lexLt; omega
  · intro k hk
    rw [Less_eq p i j hi hj, Less_eq p j k hj hk, Less_eq p i k hi hk, Option.some.injEq,
      Option.some.injEq, Option.some.injEq, hless, hless, hless]
    unfold Pair.lexLt; omega

/-- The comparator on the slice `[(1, 2), (1, 3)]`. -/
theorem Less_characterisation_witness :
    (0 : Nat) < ([⟨1, 2⟩, ⟨1, 3⟩] : List Pair).length ∧
    (1 : Nat) < ([⟨1, 2⟩, ⟨1, 3⟩] : List Pair).length ∧
    Less [⟨1, 2⟩, ⟨1, 3⟩] 0 1 = some false ∧
    Less [⟨1, 2⟩, ⟨1, 3⟩] 0 0 = some true := by
  have h0 : (0 : Nat) < ([⟨1, 2⟩, ⟨1, 3⟩] : List Pair).length := by decide
  have h1 : (1 : Nat) < ([⟨1, 2⟩, ⟨1, 3⟩] : List Pair).length := by decide
  have hlt : Pair.lexLt (⟨1, 2⟩ : Pair) (⟨1, 3⟩ : Pair) := Or.inr ⟨rfl, by decide⟩
  obtain ⟨hfalse, -, -, hrefl, -⟩ := Less_characterisation [⟨1, 2⟩, ⟨1, 3⟩] 0 1 h0 h1
  exact ⟨h0, h1, hfalse.2 hlt, hrefl⟩

/-- C18 (the scene back-pointer; the code falls short of it). Three entities of the
scene 7 are marshalled with an encoder that fails on the entity 1. `MarshalEntities`
returns the error, and the entity 1 is left with `Scene == nil`: the `return nil, err`
comes before the line that restores `entity.Scene`. The entity 0, encoded before the
failure, has its `Scene` restored; without a failing entity the bytes are returned. -/
theorem MarshalEntities_error_leaves_scene_nil :
    (sceneMem.entities 0).Scene = some 7 ∧ (sceneMem.entities 1).Scene = some 7 ∧
    (Scene.MarshalEntities brittleEncoder 7 [0, 1, 2] sceneMem).2 =
      Except.error "json: unsupported value" ∧
    ((Scene.MarshalEntities brittleEncoder 7 [0, 1, 2] sceneMem).1.entities 0).Scene = some 7 ∧
    ((Scene.MarshalEntities brittleEncoder 7 [0, 1, 2] sceneMem).1.entities 1).Scene = none ∧
    (Scene.MarshalEntities brittleEncoder 7 [0, 2] sceneMem).2 =
      Except.ok ['[', '{', '}', ',', '{', '}', ']'] := by
  refine ⟨rfl, rfl, rfl, rfl, rfl, rfl⟩

/-- C19 (rotation scales lengths by `S^2 + C^2`). Over exact arithmetic the squared
length of `r.RotateVect(v)` is `(r.S^2 + r.C^2)` times the squared length of `v`; so a
rotation with `S^2 + C^2 == 1` preserves the length; and after `SetIdentity`,
`RotateVect(v) == v`. -/
theorem RotateVect_scales_length (rot : Rotation) (v : Vect) :
    (rot.RotateVect v).X ^ 2 + (rot.RotateVect v).Y ^ 2 =
      (rot.S ^ 2 + rot.C ^ 2) * (v.X ^ 2 + v.Y ^ 2) ∧
    (rot.S ^ 2 + rot.C ^ 2 = 1 →
      (rot.RotateVect v).X ^ 2 + (rot.RotateVect v).Y ^ 2 = v.X ^ 2 + v.Y ^ 2) ∧
    rot.SetIdentity.RotateVect v = v := by
  have hlen : (rot.RotateVect v).X ^ 2 + (rot.RotateVect v).Y ^ 2 =
      (rot.S ^ 2 + rot.C ^ 2) * (v.X ^ 2 + v.Y ^ 2) := by
    simp only [Rotation.RotateVect]
    ring
  refine ⟨hlen, fun h1 => by rw [hlen, h1, one_mul], ?_⟩
  cases v
  simp [Rotation.RotateVect, Rotation.SetIdentity]

end Mater
